import Mathlib

set_option autoImplicit false

/-!
Shallow embedding of the `Scene` orchestration core of `satpy/scene.py`:
the dataset store, the composite-generation pass with its keepables
protocol, unload, the load cycle, geometry comparison and crop index
scaling, and writer selection by filename extension.  Parts of the
repository that live outside `scene.py` (the dependency tree, readers)
are modelled from the specification where noted.
-/

namespace Satpy

/-- Dataset identity (`DataID`); identities compare exactly in the store. -/
abbrev DataID := Nat

/-- In-memory dataset content (`xarray.DataArray`); the array is abstract. -/
abbrev DArr := Nat

/-- A key as the user passes it to `Scene.load`: a raw name/query or a
concrete `DataID`.  A raw key never compares equal to a `DataID` in Python
set operations (distinct hash), which the sum type mirrors. -/
inductive SKey where
| raw (s : Nat)
| did (d : Nat)
deriving Repr, DecidableEq

/-- Membership test of an identity in the dataset store (`ds_id in self._datasets`). -/
def containsId (store : List (DataID × DArr)) (i : DataID) : Bool :=
  store.any (fun p => p.1 == i)

/-- Exact lookup in the dataset store (`self._datasets[ds_id]`). -/
def lookupId (store : List (DataID × DArr)) (i : DataID) : Option DArr :=
  (store.find? (fun p => p.1 == i)).map Prod.snd

/-- Store assignment (`self._datasets[ds_id] = value`): replace in place,
else append (`DatasetDict` keeps insertion order). -/
def setId (store : List (DataID × DArr)) (i : DataID) (v : DArr) : List (DataID × DArr) :=
  if containsId store i then store.map (fun p => if p.1 = i then (i, v) else p)
  else store ++ [(i, v)]

/-- The set of identities currently stored (`set(self._datasets.keys())`). -/
def storedIds (store : List (DataID × DArr)) : Finset DataID :=
  (store.map Prod.fst).toFinset

/-- The mutable pieces of a `Scene` the claims concern: the dataset store
(`self._datasets`), the wishlist (`self._wishlist`), the dependency-tree name
registry (the map from requested key to current node name), and two ghost
logs recording reader load calls and compositor invocations. -/
structure SceneState where
  store : List (DataID × DArr)
  wishlist : Finset SKey
  treeCache : List (SKey × DataID)
  readerLog : List (String × List DataID)
  compLog : List DataID
deriving DecidableEq

/-- Dependency-tree nodes (`satpy.node`): reader leaves, the empty sentinel
used for unfulfilled optional slots, and compositor nodes with required and
optional prerequisite subtrees. -/
inductive Node where
| readerN (name : DataID) (readerName : String)
| emptyN
| compN (name : DataID) (required : List Node) (opt : List Node)
deriving Repr

/-- Node name (`node.name`); the empty sentinel's name is None. -/
def Node.nodeName : Node → Option DataID
| .readerN n _ => some n
| .emptyN => none
| .compN n _ _ => some n

/-- Names of a prerequisite node list as a set of identities (the None name of
the empty sentinel is dropped; a None member of a Python set never equals a
DataID, so dropping it is faithful). -/
def nodeNames (ns : List Node) : Finset DataID :=
  (ns.filterMap Node.nodeName).toFinset

/-- Outcome of invoking a compositor callable (spec section 6 contract): a
generated dataset together with the concrete identity derived from it
(`DataID.new_id_from_dataarray`), or the designated `IncompatibleAreas`
signal. -/
inductive CompOutcome where
| ok (cid : DataID) (data : DArr)
| incompatibleAreas
deriving Repr, DecidableEq

/-- Catalog entry for an identity: provided by a reader, or a composite with
declared required and optional prerequisites. -/
inductive CatEntry where
| readerE (readerName : String)
| compE (required : List DataID) (opt : List DataID)
deriving Repr, DecidableEq

/-- External collaborators of the Scene core (spec section 6): compositor
callables, the compositor/reader catalog, raw-key resolution, and the
readers' load contract (None means "not loadable now"). -/
structure Env where
  compRun : DataID → List DArr → List DArr → CompOutcome
  catalog : DataID → Option CatEntry
  rawResolve : Nat → Option DataID
  readerData : DataID → Option DArr

/-- `DependencyTree.update_node_name`: after successful generation the node's
identity in the tree registry is replaced by the computed concrete identity. -/
def renameCache (c : List (SKey × DataID)) (old cid : DataID) : List (SKey × DataID) :=
  c.map (fun p => if p.2 = old then (p.1, cid) else p)

/-- Result of the prerequisite-collection loop of `Scene._get_prereq_datasets`
(scene.py lines 1664-1688).  `err` records that a KeyError for a hard-missing
required prerequisite escaped the loop; `delayed` records that some
prerequisite is a CompositorNode pending in keepables; `nodes` are the
prerequisite nodes after any in-place renames done by recursive generation. -/
structure LoopResult where
  err : Bool
  st : SceneState
  keep : Finset DataID
  nodes : List Node
  collected : List DArr
  delayed : Bool

/-- Signal carried out of `Scene._get_prereq_datasets`: normal return, the
DelayedGeneration exception, or the hard-missing KeyError. -/
inductive PrereqSignal where
| ok
| delayedGen
| keyErr
deriving Repr, DecidableEq

/-- Result of `Scene._get_prereq_datasets`, with the state and keepables as
mutated by the call even when it raises. -/
structure PrereqResult where
  sig : PrereqSignal
  st : SceneState
  keep : Finset DataID
  nodes : List Node
  collected : List DArr

/-- Epilogue of `Scene._get_prereq_datasets` (scene.py lines 1690-1701): a
raised KeyError skips it; otherwise a delayed prerequisite adds the dependent
composite id and every prerequisite node name to keepables and, for required
prerequisites (skip=False), raises DelayedGeneration. -/
def finishPrereq (compId : DataID) (skip : Bool) (r : LoopResult) : PrereqResult :=
  if r.err then ⟨.keyErr, r.st, r.keep, r.nodes, []⟩
  else if r.delayed then
    ⟨if skip then .ok else .delayedGen, r.st, insert compId (r.keep ∪ nodeNames r.nodes),
      r.nodes, r.collected⟩
  else ⟨.ok, r.st, r.keep, r.nodes, r.collected⟩

mutual

/-- `Scene._generate_composite` (scene.py lines 1567-1642): collect prerequisites
(required, then optional), then either defer on DelayedGeneration, abandon on
KeyError, or invoke the compositor, handling `IncompatibleAreas` by preserving
inputs as keepables.  Returns the updated state, keepables, and the node after
its in-place rename. -/
def genComposite (env : Env) (node : Node) (st : SceneState) (keep : Finset DataID) :
    SceneState × Finset DataID × Node :=
  match node with
  | .readerN n rd => (st, keep, .readerN n rd)
  | .emptyN => (st, keep, .emptyN)
  | .compN nm req opt =>
    if containsId st.store nm then (st, keep, .compN nm req opt)
    else
      let r1 := getPrereqDatasets env nm req st keep false
      if r1.sig = .keyErr then (r1.st, r1.keep, .compN nm r1.nodes opt)
      else
        let r2 := getPrereqDatasets env nm opt r1.st r1.keep true
        if r1.sig = .delayedGen then
          (r2.st, r2.keep ∪ storedIds r2.st.store ∩ (nodeNames r1.nodes ∪ nodeNames r2.nodes),
            .compN nm r1.nodes r2.nodes)
        else
          let stL := {r2.st with compLog := r2.st.compLog ++ [nm]}
          match env.compRun nm r1.collected r2.collected with
          | .ok cid data =>
            let wl := if SKey.did nm ∈ stL.wishlist
              then insert (SKey.did cid) (stL.wishlist.erase (SKey.did nm))
              else stL.wishlist
            ({stL with
                store := setId stL.store cid data,
                wishlist := wl,
                treeCache := renameCache stL.treeCache nm cid},
              r2.keep, .compN cid r1.nodes r2.nodes)
          | .incompatibleAreas =>
            (stL,
              insert nm (r2.keep ∪ storedIds stL.store ∩ (nodeNames r1.nodes ∪ nodeNames r2.nodes)),
              .compN nm r1.nodes r2.nodes)
termination_by (sizeOf node, 1)

/-- `Scene._get_prereq_datasets` (scene.py lines 1644-1702). -/
def getPrereqDatasets (env : Env) (compId : DataID) (nodes : List Node) (st : SceneState)
    (keep : Finset DataID) (skip : Bool) : PrereqResult :=
  finishPrereq compId skip (getPrereqLoop env skip nodes st keep)
termination_by (sizeOf nodes, 1)

/-- The for-loop of `Scene._get_prereq_datasets` (scene.py lines 1664-1688):
recursively generate unloaded compositor prerequisites, then branch on the
(possibly renamed) prerequisite: empty sentinel skipped, stored dataset
collected, keepables-pending CompositorNode marks delayed generation,
otherwise KeyError for required or a log for optional prerequisites. -/
def getPrereqLoop (env : Env) (skip : Bool) (nodes : List Node) (st : SceneState)
    (keep : Finset DataID) : LoopResult :=
  match nodes with
  | [] => ⟨false, st, keep, [], [], false⟩
  | .emptyN :: rest =>
    let r := getPrereqLoop env skip rest st keep
    {r with nodes := Node.emptyN :: r.nodes}
  | .readerN n rd :: rest =>
    if containsId st.store n then
      let r := getPrereqLoop env skip rest st keep
      {r with
        nodes := Node.readerN n rd :: r.nodes,
        collected := (lookupId st.store n).getD 0 :: r.collected}
    else if skip then
      let r := getPrereqLoop env skip rest st keep
      {r with nodes := Node.readerN n rd :: r.nodes}
    else
      ⟨true, st, keep, Node.readerN n rd :: rest, [], false⟩
  | .compN n creq copt :: rest =>
    let g :=
      if ¬ containsId st.store n ∧ n ∉ keep then
        genComposite env (.compN n creq copt) st keep
      else (st, keep, Node.compN n creq copt)
    let st1 := g.1
    let keep1 := g.2.1
    let p := g.2.2
    let n1 := p.nodeName.getD n
    if containsId st1.store n1 then
      let r := getPrereqLoop env skip rest st1 keep1
      {r with
        nodes := p :: r.nodes,
        collected := (lookupId st1.store n1).getD 0 :: r.collected}
    else if n1 ∈ keep1 then
      let r := getPrereqLoop env skip rest st1 keep1
      {r with nodes := p :: r.nodes, delayed := true}
    else if skip then
      let r := getPrereqLoop env skip rest st1 keep1
      {r with nodes := p :: r.nodes}
    else
      ⟨true, st1, keep1, p :: rest, [], false⟩
termination_by (sizeOf nodes, 0)

end

/-- `Scene.unload` (scene.py lines 1399-1416): delete every stored dataset
whose identity is neither in the wishlist nor (when keepables is non-empty)
in keepables; an empty keepables set protects nothing. -/
def unload (st : SceneState) (keep : Finset DataID) : SceneState :=
  let kept := st.store.filter
    (fun p => decide (SKey.did p.1 ∈ st.wishlist ∨ (keep ≠ ∅ ∧ p.1 ∈ keep)))
  {st with store := kept}

/-- A load failure: the KeyError raised by `Scene._update_dependency_tree`
(scene.py lines 1478-1484) wrapping the dependency tree's MissingDependencies;
it carries the set of unresolvable keys named in the message. -/
inductive LoadErr where
| unresolvable (keys : Finset SKey)
deriving DecidableEq

/-- Lookup of a requested key in the dependency-tree name registry. -/
def lookupCache (c : List (SKey × DataID)) (k : SKey) : Option DataID :=
  (c.find? (fun p => p.1 == k)).map Prod.snd

/-- Modelled from the spec: resolution of a single requested key by the
dependency tree (`DependencyTree._create_subtree_for_key` in
satpy/dependency_tree.py, which is not under src/): a key first matches an
existing tree node, else it becomes a reader or compositor node from the
catalog (spec section 4.1); an unknown key is unresolvable.  The DataQuery
shortcut filters of `load` are part of the resolution environment. -/
def resolveKey (env : Env) (cache : List (SKey × DataID)) (k : SKey) : Option DataID :=
  match lookupCache cache k with
  | some d => some d
  | none =>
    match k with
    | .raw r => env.rawResolve r
    | .did d => if (env.catalog d).isSome then some d else none

/-- Injective numeric encoding of keys, used only to linearize key sets
deterministically. -/
def SKey.enc : SKey → Nat
| .raw r => 2 * r
| .did d => 2 * d + 1

/-- Deterministic order on keys via the encoding. -/
def skeyLE (a b : SKey) : Prop := SKey.enc a ≤ SKey.enc b

theorem SKey.enc_injective : Function.Injective SKey.enc := by
  intro a b h
  cases a <;> cases b
  all_goals simp only [SKey.enc] at h
  · exact congrArg SKey.raw (by omega)
  · exact absurd h (by omega)
  · exact absurd h (by omega)
  · exact congrArg SKey.did (by omega)


instance : DecidableRel skeyLE := fun _ _ => Nat.decLe _ _

instance : IsTrans SKey skeyLE := ⟨fun _ _ _ => Nat.le_trans⟩

instance : IsTotal SKey skeyLE := ⟨fun _ _ => Nat.le_total _ _⟩

instance : IsAntisymm SKey skeyLE :=
  ⟨fun _ _ h1 h2 => SKey.enc_injective (Nat.le_antisymm h1 h2)⟩

/-- Deterministic linearization of a key set (Python set iteration order is
modelled as this canonical order). -/
def sortedKeys (s : Finset SKey) : List SKey := s.sort skeyLE

/-- Modelled from the spec: `DependencyTree.populate_with_keys`
(satpy/dependency_tree.py, not under src/) resolves every requested key,
collects ALL the unresolvable keys into one MissingDependencies error rather
than stopping at the first (spec section 4.1), registers the newly created
nodes, and replaces the passed key set with the resolved node identities.
Returns (new registry, unresolvable keys, resolved identities). -/
def populateWithKeys (env : Env) (cache : List (SKey × DataID)) (needed : Finset SKey) :
    List (SKey × DataID) × Finset SKey × Finset DataID :=
  let unresolved := needed.filter (fun k => resolveKey env cache k = none)
  let resolved := needed.biUnion (fun k => (resolveKey env cache k).toFinset)
  let fresh := (sortedKeys needed).filterMap (fun k =>
    match lookupCache cache k, resolveKey env cache k with
    | none, some d => some (k, d)
    | _, _ => none)
  (cache ++ fresh, unresolved, resolved)

/-- Test whether a requested key is still needed: true unless it is a DataID
already in the store (Python set difference against the stored identities;
a raw key never equals a stored DataID). -/
def keyNeeded (s : SceneState) (k : SKey) : Bool :=
  match k with
  | SKey.raw _ => true
  | SKey.did d => !(containsId s.store d)

/-- `Scene.missing_datasets` (scene.py lines 244-247): wishlist entries with
no stored dataset. -/
def missingKeys (s : SceneState) : Finset SKey :=
  s.wishlist.filter (fun k => keyNeeded s k = true)

/-- The missing wishlist entries that are concrete identities, as a list (the
dependency tree limits its traversals to these). -/
def missingDids (s : SceneState) : List DataID :=
  (sortedKeys (missingKeys s)).filterMap (fun k =>
    match k with
    | SKey.raw _ => none
    | SKey.did d => some d)

/-- Modelled from the spec: `DependencyTree.leaves(limit_nodes_to=...)`
(satpy/dependency_tree.py, not under src/): the reader-backed identities
reachable from an identity through compositor prerequisite edges (spec
sections 4.1 and 4.3 step 3); fuel bounds the recursion depth. -/
def leavesOf (env : Env) : Nat → DataID → List DataID
| 0, _ => []
| fuel + 1, i =>
  match env.catalog i with
  | some (.readerE _) => [i]
  | some (.compE req opt) => (req ++ opt).flatMap (leavesOf env fuel)
  | none => []

/-- Helper of `Scene._sort_dataset_nodes_by_reader`: record an identity under
its reader, keeping first-encounter order and set semantics per reader. -/
def addReaderGroup : List (String × List DataID) → String → DataID → List (String × List DataID)
| [], r, i => [(r, [i])]
| g :: gs, r, i =>
  if g.1 = r then (if i ∈ g.2 then g :: gs else (g.1, g.2 ++ [i]) :: gs)
  else g :: addReaderGroup gs r i

/-- `Scene._sort_dataset_nodes_by_reader` (scene.py lines 1507-1521): group
the needed leaf identities by owning reader, skipping identities already in
the store. -/
def sortNodesByReader (env : Env) (store : List (DataID × DArr)) (ids : List DataID) :
    List (String × List DataID) :=
  ids.foldl (fun acc i =>
    if containsId store i then acc
    else
      match env.catalog i with
      | some (.readerE r) => addReaderGroup acc r i
      | _ => acc) []

/-- `Scene._read_datasets_from_storage` with `_read_dataset_nodes_from_storage`
and `_load_datasets_by_readers` (scene.py lines 1486-1530): determine the leaf
identities of the currently missing datasets, group them by reader, invoke
each reader's load contract once, and merge the results into the store.  Each
reader invocation is recorded in the ghost reader log. -/
def readFromStorage (env : Env) (fuel : Nat) (s : SceneState) : SceneState :=
  let leafIds := (missingDids s).flatMap (leavesOf env fuel)
  let groups := sortNodesByReader env s.store leafIds
  groups.foldl (fun st g =>
    let results := g.2.filterMap (fun i => (env.readerData i).map (fun v => (i, v)))
    {st with
      store := results.foldl (fun acc p => setId acc p.1 p.2) st.store,
      readerLog := st.readerLog ++ [g]}) s

/-- Modelled from the spec: expansion of an identity into its dependency
subtree (spec section 4.1): composite catalog entries become CompositorNodes
with required and optional prerequisite subtrees, reader entries become
ReaderNodes, anything else the empty sentinel; fuel bounds the depth. -/
def buildNode (env : Env) : Nat → DataID → Node
| 0, _ => .emptyN
| fuel + 1, i =>
  match env.catalog i with
  | some (.readerE r) => .readerN i r
  | some (.compE req opt) =>
    .compN i (req.map (buildNode env fuel)) (opt.map (buildNode env fuel))
  | none => .emptyN

/-- Wishlist-retention test of `Scene._remove_failed_datasets`: an entry is
kept when it is not missing or when it is a keepables-protected identity. -/
def keepWishKey (s : SceneState) (keep : Finset DataID) (k : SKey) : Bool :=
  !(decide (k ∈ missingKeys s)) ||
    (match k with
     | SKey.raw _ => false
     | SKey.did d => decide (d ∈ keep))

/-- `Scene._remove_failed_datasets` (scene.py lines 1382-1397): discard from
the wishlist every missing entry that keepables does not protect. -/
def removeFailedDatasets (s : SceneState) (keep : Finset DataID) : SceneState :=
  {s with wishlist := s.wishlist.filter (fun k => keepWishKey s keep k = true)}

/-- `Scene.generate_possible_composites` together with
`_generate_composites_from_loaded_datasets` and
`_generate_composites_nodes_from_loaded_datasets` (scene.py lines 1532-1565):
process the trunk CompositorNodes of the currently missing wishlist
identities (the trunk is modelled from the spec, section 4.4: the
CompositorNodes reachable from currently-missing identities, with their
prerequisite composites handled by the recursive generation), accumulate
keepables, then drop failed wishlist entries and, if requested, unload. -/
def generatePossibleComposites (env : Env) (fuel : Nat) (unloadFlag : Bool) (s : SceneState) :
    SceneState :=
  let trunkNodes := (missingDids s).filterMap (fun i =>
    match env.catalog i with
    | some (.compE _ _) => some (buildNode env fuel i)
    | _ => none)
  let res := trunkNodes.foldl (fun acc n =>
    let g := genComposite env n acc.1 acc.2
    (g.1, g.2.1)) (s, (∅ : Finset DataID))
  let s2 := if missingKeys res.1 ≠ ∅ then removeFailedDatasets res.1 res.2 else res.1
  if unloadFlag then unload s2 res.2 else s2

/-- `Scene.load` (scene.py lines 1418-1476): compute the needed keys, expand
the dependency tree (a KeyError naming every unresolvable key aborts the call
before the wishlist and store are touched), merge the resolved identities into
the wishlist, read leaf datasets from the readers, then generate composites
and unload.  The state is returned alongside the optional error so the
effects up to the raise point stay observable. -/
def loadScene (env : Env) (fuel : Nat) (keys : Finset SKey) (generate unloadFlag : Bool)
    (s : SceneState) : SceneState × Option LoadErr :=
  let needed := (s.wishlist ∪ keys).filter (fun k => keyNeeded s k = true)
  let pop := populateWithKeys env s.treeCache needed
  let s1 := {s with treeCache := pop.1}
  if pop.2.1 ≠ ∅ then (s1, some (.unresolvable pop.2.1))
  else
    let s2 := {s1 with wishlist := s1.wishlist ∪ pop.2.2.image SKey.did}
    let s3 := readFromStorage env fuel s2
    let s4 := if generate then generatePossibleComposites env fuel unloadFlag s3 else s3
    (s4, none)

/-- Uniform-grid area (pyresample `AreaDefinition` as `Scene._compare_area_defs`
reads it): identifying name, coordinate reference system, signed pixel sizes,
and spatial extent.  Pixel sizes are rationals; the source's floats carry the
same comparisons on the concrete values the claims use. -/
structure AreaDef where
  areaId : String
  crs : Nat
  pixelSizeX : ℚ
  pixelSizeY : ℚ
  extent : ℚ × ℚ × ℚ × ℚ
deriving DecidableEq

/-- Lexicographic view of a 4-tuple extent (a Python tuple comparison). -/
abbrev ExtKey := ℚ ×ₗ ℚ ×ₗ ℚ ×ₗ ℚ

/-- Keys compared by `Scene._compare_area_defs` (a Python 4-tuple, compared
lexicographically). -/
abbrev AKey := ℚ ×ₗ ℚ ×ₗ ExtKey ×ₗ String

/-- Lexicographic packaging of an extent tuple. -/
def toExtKey (e : ℚ × ℚ × ℚ × ℚ) : ExtKey :=
  toLex (e.1, toLex (e.2.1, toLex (e.2.2.1, e.2.2.2)))

/-- `Scene._compare_area_defs._key_func` (scene.py lines 278-290): inverse
absolute pixel size in x, then inverse absolute pixel size in y, then the
area extent, then the area name. -/
def AreaDef.keyOf (a : AreaDef) : AKey :=
  toLex (1 / |a.pixelSizeX|, toLex (1 / |a.pixelSizeY|, toLex (toExtKey a.extent, a.areaId)))

/-- Python max/min with a key function: fold keeping the current extreme and
replacing it only when the candidate is strictly better, so ties keep the
earliest element. -/
def pickBy {α : Type} (better : α → α → Bool) : List α → Option α
| [] => none
| x :: rest => some (rest.foldl (fun cur y => if better cur y then y else cur) x)

/-- Failures of `Scene._compare_areas`: no areas, or mixed projections. -/
inductive AreaErr where
| noAreas
| crsMismatch
deriving Repr, DecidableEq

/-- `Scene._compare_areas` restricted to uniform-grid areas together with
`Scene._compare_area_defs` (scene.py lines 249-291): every area must share the
first area's CRS, then the extreme under the key ordering is returned. -/
def compareAreaDefs (better : AreaDef → AreaDef → Bool) (areas : List AreaDef) :
    Except AreaErr AreaDef :=
  match areas with
  | [] => .error .noAreas
  | a0 :: rest =>
    if rest.all (fun a => a.crs == a0.crs) then
      match pickBy better (a0 :: rest) with
      | some a => .ok a
      | none => .error .noAreas
    else .error .crsMismatch

/-- `Scene.finest_area` (scene.py lines 325-335): Python max over the key. -/
def finestArea (areas : List AreaDef) : Except AreaErr AreaDef :=
  compareAreaDefs (fun cur y => decide (cur.keyOf < y.keyOf)) areas

/-- `Scene.coarsest_area` (scene.py lines 356-366): Python min over the key. -/
def coarsestArea (areas : List AreaDef) : Except AreaErr AreaDef :=
  compareAreaDefs (fun cur y => decide (y.keyOf < cur.keyOf)) areas

/-- Modelled from the spec, for the refinement comparison of claim C6 only:
the spec sentence ranks by the finer (smaller) of the two axis pixel sizes,
then the other axis pixel size, then the extent, then the name. -/
def AreaDef.specKeyOf (a : AreaDef) : AKey :=
  toLex (1 / min |a.pixelSizeX| |a.pixelSizeY|,
    toLex (1 / max |a.pixelSizeX| |a.pixelSizeY|, toLex (toExtKey a.extent, a.areaId)))

/-- Modelled from the spec, for the refinement comparison of claim C6 only:
finest area under the spec sentence's ordering. -/
def finestAreaSpec (areas : List AreaDef) : Except AreaErr AreaDef :=
  compareAreaDefs (fun cur y => decide (cur.specKeyOf < y.specKeyOf)) areas

/-- Area as `Scene.crop` uses it: an identifier and a (rows, columns) shape. -/
structure CArea where
  aid : Nat
  shape : Nat × Nat
deriving Repr, DecidableEq

/-- Dataset as `Scene.crop` and `Scene._slice_datasets` see it: abstract data,
the list of index slicings applied to it (`ds.isel`), and its area. -/
structure CDset where
  data : DArr
  slices : List ((Nat × Nat) × (Nat × Nat))
  area : Option CArea
deriving Repr, DecidableEq

/-- Area slicing (`src_area[y_slice, x_slice]`, an external pyresample
operation): the shape becomes the slice lengths. -/
def sliceCArea (a : CArea) (ys xs : Nat × Nat) : CArea :=
  {a with shape := (ys.2 - ys.1, xs.2 - xs.1)}

/-- The exact-integer-ratio slice scaling of `Scene.crop` (scene.py lines
757-767): divide the source shape by the coarsest shape per axis; when both
remainders vanish, scale the coarse slice start and stop by the integer
factors, else report no exact ratio. -/
def scaledSlices (srcShape coarseShape : Nat × Nat) (ys xs : Nat × Nat) :
    Option ((Nat × Nat) × (Nat × Nat)) :=
  let yFactor := srcShape.1 / coarseShape.1
  let yRemainder := srcShape.1 % coarseShape.1
  let xFactor := srcShape.2 / coarseShape.2
  let xRemainder := srcShape.2 % coarseShape.2
  if yRemainder = 0 ∧ xRemainder = 0 then
    some ((ys.1 * yFactor, ys.2 * yFactor), (xs.1 * xFactor, xs.2 * xFactor))
  else none

/-- Grouping helper of `Scene.iter_by_area` (scene.py lines 556-567): datasets
grouped by area in first-encounter order. -/
def addAreaGroup : List (Option CArea × List DataID) → Option CArea → DataID →
    List (Option CArea × List DataID)
| [], a, i => [(a, [i])]
| g :: gs, a, i =>
  if g.1 = a then (g.1, g.2 ++ [i]) :: gs else g :: addAreaGroup gs a i

/-- `Scene.iter_by_area` (scene.py lines 556-567). -/
def iterByArea (store : List (DataID × CDset)) : List (Option CArea × List DataID) :=
  store.foldl (fun acc p => addAreaGroup acc p.2.area p.1) []

/-- `Scene._slice_datasets` as `Scene.crop` invokes it (scene.py lines
630-664 and 770): record the index slicing on each listed dataset and attach
the new area. -/
def sliceGroup (store : List (DataID × CDset)) (ids : List DataID) (newArea : CArea)
    (ys xs : Nat × Nat) : List (DataID × CDset) :=
  ids.foldl (fun acc i =>
    acc.map (fun p =>
      if p.1 = i then
        (p.1, {p.2 with slices := p.2.slices ++ [(ys, xs)], area := some newArea})
      else p)) store

/-- One iteration of the per-area loop of `Scene.crop` (scene.py lines
751-774): datasets without an area are carried over unchanged; areas with an
exact integer shape ratio are sliced with scaled indices; the others are
recorded in the local `new_target_areas` mapping (the second component). -/
def cropStep (coarseShape : Nat × Nat) (ys xs : Nat × Nat)
    (acc : List (DataID × CDset) × List CArea) (g : Option CArea × List DataID) :
    List (DataID × CDset) × List CArea :=
  match g.1 with
  | none => acc
  | some a =>
    match scaledSlices a.shape coarseShape ys xs with
    | some s => (sliceGroup acc.1 g.2 (sliceCArea a s.1 s.2) s.1 s.2, acc.2)
    | none => (acc.1, acc.2 ++ [a])

/-- The per-area loop of `Scene.crop` (scene.py lines 750-776), given the
coarsest area's shape and the coarse-grid slices already computed from the
bbox (`_slice_area_from_bbox` delegates to external pyresample code). -/
def cropLoop (coarseShape : Nat × Nat) (ys xs : Nat × Nat)
    (store : List (DataID × CDset)) : List (DataID × CDset) × List CArea :=
  (iterByArea store).foldl (cropStep coarseShape ys xs) (store, [])

/-- `Scene.crop` returns only the new Scene; the `new_target_areas` mapping
built for grids without an exact integer ratio is a local discarded at
return (scene.py lines 750-776). -/
def cropStore (coarseShape : Nat × Nat) (ys xs : Nat × Nat)
    (store : List (DataID × CDset)) : List (DataID × CDset) :=
  (cropLoop coarseShape ys xs store).1

/-- Exact lookup in a crop-scene store. -/
def lookupC (store : List (DataID × CDset)) (i : DataID) : Option CDset :=
  (store.find? (fun p => p.1 == i)).map Prod.snd

/-- Python str.lower as it acts on filename extensions (ASCII): lowercase
every character. -/
def strLower (s : String) : String := ⟨s.data.map Char.toLower⟩

/-- `Scene._get_writer_by_ext` (scene.py lines 1357-1380): map the lowercased
filename extension through the fixed table, defaulting to simple_image. -/
def getWriterByExt (extension : String) : String :=
  let mapping := [(".tiff", "geotiff"), (".tif", "geotiff"), (".nc", "cf"),
    (".mitiff", "mitiff")]
  (mapping.lookup (strLower extension)).getD "simple_image"

/-- Concrete environment for witnesses: the compositor always reports
incompatible areas, nothing else is known. -/
def envInc : Env where
  compRun := fun _ _ _ => .incompatibleAreas
  catalog := fun _ => none
  rawResolve := fun _ => none
  readerData := fun _ => none

/-- Concrete empty scene state for witnesses. -/
def stEmpty : SceneState := ⟨[], ∅, [], [], []⟩

/-- Concrete scene state for witnesses: dataset 2 loaded, nothing wished. -/
def stTwo : SceneState := ⟨[(2, 5)], ∅, [], [], []⟩

/-- Concrete uniform grid with 500-unit square pixels. -/
def g500 : AreaDef := ⟨"g500", 7, 500, 500, (0, 0, 1000, 1000)⟩

/-- Concrete uniform grid with 1000-unit square pixels. -/
def g1000 : AreaDef := ⟨"g1000", 7, 1000, 1000, (0, 0, 1000, 1000)⟩

/-- Concrete uniform grid with 2000-unit square pixels. -/
def g2000 : AreaDef := ⟨"g2000", 7, 2000, 2000, (0, 0, 1000, 1000)⟩

/-- Concrete grid with rectangular pixels, 1000 wide and 250 tall. -/
def gWide : AreaDef := ⟨"gwide", 7, 1000, 250, (0, 0, 1000, 1000)⟩

/-- Scene already holding dataset 1, wished and cached under the raw key 0. -/
def stOne : SceneState := ⟨[(1, 100)], {SKey.did 1}, [(SKey.raw 0, 1)], [], []⟩

/-- Environment for the repeated-load counterexample: composite 10 requires
reader dataset 1 and optionally composite 11, which requires reader dataset 2;
generating 11 fails with IncompatibleAreas while 10 succeeds, so dataset 2
survives the first load only through the keepables set. -/
def env5 : Env where
  compRun := fun n _ _ => if n = 10 then .ok 10 900 else .incompatibleAreas
  catalog := fun i =>
    if i = 1 then some (.readerE "r")
    else if i = 2 then some (.readerE "r")
    else if i = 10 then some (.compE [1] [11])
    else if i = 11 then some (.compE [2] [])
    else none
  rawResolve := fun r => if r = 0 then some 10 else none
  readerData := fun i => if i = 1 then some 100 else if i = 2 then some 200 else none

theorem finishPrereq_keep_mono (c : DataID) (skip : Bool) (r : LoopResult) :
    r.keep ⊆ (finishPrereq c skip r).keep := by
  unfold finishPrereq
  split
  · exact Finset.Subset.refl _
  · split
    · intro a ha
      exact Finset.mem_insert_of_mem (Finset.mem_union_left _ ha)
    · exact Finset.Subset.refl _

mutual

theorem genComposite_keep_mono (env : Env) (node : Node) (st : SceneState)
    (keep : Finset DataID) : keep ⊆ (genComposite env node st keep).2.1 := by
  cases node with
  | readerN n rd => rw [genComposite]
  | emptyN => rw [genComposite]
  | compN nm req opt =>
    rw [genComposite]
    dsimp only
    split
    · exact Finset.Subset.refl _
    · have h1 := getPrereqDatasets_keep_mono env nm req st keep false
      split
      · exact h1
      · have h2 := getPrereqDatasets_keep_mono env nm opt
          (getPrereqDatasets env nm req st keep false).st
          (getPrereqDatasets env nm req st keep false).keep true
        have h12 := h1.trans h2
        split
        · exact h12.trans Finset.subset_union_left
        · split
          · exact h12
          · exact fun a ha => Finset.mem_insert_of_mem
              (Finset.mem_union_left _ (h12 ha))
termination_by (sizeOf node, 1)

theorem getPrereqDatasets_keep_mono (env : Env) (compId : DataID) (nodes : List Node)
    (st : SceneState) (keep : Finset DataID) (skip : Bool) :
    keep ⊆ (getPrereqDatasets env compId nodes st keep skip).keep := by
  rw [getPrereqDatasets]
  exact (getPrereqLoop_keep_mono env skip nodes st keep).trans
    (finishPrereq_keep_mono compId skip _)
termination_by (sizeOf nodes, 1)

theorem getPrereqLoop_keep_mono (env : Env) (skip : Bool) (nodes : List Node)
    (st : SceneState) (keep : Finset DataID) :
    keep ⊆ (getPrereqLoop env skip nodes st keep).keep := by
  cases nodes with
  | nil => rw [getPrereqLoop]
  | cons hd rest =>
    cases hd with
    | emptyN =>
      rw [getPrereqLoop]
      exact getPrereqLoop_keep_mono env skip rest st keep
    | readerN n rd =>
      rw [getPrereqLoop]
      dsimp only
      split
      · exact getPrereqLoop_keep_mono env skip rest st keep
      · split
        · exact getPrereqLoop_keep_mono env skip rest st keep
        · exact Finset.Subset.refl _
    | compN n creq copt =>
      rw [getPrereqLoop]
      dsimp only
      split
      · have hg := genComposite_keep_mono env (.compN n creq copt) st keep
        split
        · exact hg.trans (getPrereqLoop_keep_mono env skip rest _ _)
        · split
          · exact hg.trans (getPrereqLoop_keep_mono env skip rest _ _)
          · split
            · exact hg.trans (getPrereqLoop_keep_mono env skip rest _ _)
            · exact hg
      · split
        · exact getPrereqLoop_keep_mono env skip rest st keep
        · split
          · exact getPrereqLoop_keep_mono env skip rest st keep
          · split
            · exact getPrereqLoop_keep_mono env skip rest st keep
            · exact Finset.Subset.refl _
termination_by (sizeOf nodes, 0)

end

theorem getPrereqDatasets_delayed_mem (env : Env) (compId : DataID) (nodes : List Node)
    (st : SceneState) (keep : Finset DataID) (skip : Bool)
    (h : (getPrereqDatasets env compId nodes st keep skip).sig = .delayedGen) :
    compId ∈ (getPrereqDatasets env compId nodes st keep skip).keep := by
  rw [getPrereqDatasets] at h ⊢
  unfold finishPrereq at h ⊢
  split at h
  · exact absurd h (by simp)
  · split at h
    · simp_all
    · exact absurd h (by simp)

/-- C1: for a CompositorNode whose required-prerequisite collection raises the
soft-delayed DelayedGeneration signal (a required prerequisite is itself a
CompositorNode pending in keepables), `_generate_composite` stops without
invoking the compositor — the returned state, including the
compositor-invocation log, is exactly the state the two prerequisite
collections left — and the returned keepables contain the node's own
placeholder identity and every required and optional prerequisite identity
present in the dataset store. -/
theorem generateComposite_soft_delayed (env : Env) (nm : DataID) (req opt : List Node)
    (st : SceneState) (keep : Finset DataID)
    (hnl : containsId st.store nm = false)
    (hdel : (getPrereqDatasets env nm req st keep false).sig = .delayedGen) :
    (genComposite env (.compN nm req opt) st keep).1 =
      (getPrereqDatasets env nm opt (getPrereqDatasets env nm req st keep false).st
        (getPrereqDatasets env nm req st keep false).keep true).st ∧
    (genComposite env (.compN nm req opt) st keep).1.compLog =
      (getPrereqDatasets env nm opt (getPrereqDatasets env nm req st keep false).st
        (getPrereqDatasets env nm req st keep false).keep true).st.compLog ∧
    nm ∈ (genComposite env (.compN nm req opt) st keep).2.1 ∧
    (∀ i ∈ nodeNames (getPrereqDatasets env nm req st keep false).nodes ∪
        nodeNames (getPrereqDatasets env nm opt (getPrereqDatasets env nm req st keep false).st
          (getPrereqDatasets env nm req st keep false).keep true).nodes,
      i ∈ storedIds (genComposite env (.compN nm req opt) st keep).1.store →
      i ∈ (genComposite env (.compN nm req opt) st keep).2.1) := by
  have hmem : nm ∈ (getPrereqDatasets env nm req st keep false).keep :=
    getPrereqDatasets_delayed_mem env nm req st keep false hdel
  have hmono := getPrereqDatasets_keep_mono env nm opt
    (getPrereqDatasets env nm req st keep false).st
    (getPrereqDatasets env nm req st keep false).keep true
  rw [genComposite]
  simp only [hnl, Bool.false_eq_true, if_false, hdel]
  simp only [reduceCtorEq, if_false, if_true]
  refine ⟨trivial, trivial, Finset.mem_union_left _ (hmono hmem), ?_⟩
  intro i hi hstored
  exact Finset.mem_union_right _ (Finset.mem_inter.mpr ⟨hstored, hi⟩)

/-- Witness for C1: a composite (id 1) whose single required prerequisite is a
CompositorNode (id 5) pending in keepables; the collection signals
soft-delayed and after generation the keepables contain 1 and every stored
prerequisite identity. -/
theorem generateComposite_soft_delayed_witness :
    containsId stEmpty.store 1 = false ∧
    (getPrereqDatasets envInc 1 [.compN 5 [] []] stEmpty {5} false).sig = .delayedGen ∧
    1 ∈ (genComposite envInc (.compN 1 [.compN 5 [] []] []) stEmpty {5}).2.1 := by
  have h1 : containsId stEmpty.store 1 = false := rfl
  have h2 : (getPrereqDatasets envInc 1 [.compN 5 [] []] stEmpty {5} false).sig =
      .delayedGen := by
    simp [getPrereqDatasets, getPrereqLoop, finishPrereq, stEmpty, containsId, envInc,
      Node.nodeName, genComposite]
  exact ⟨h1, h2,
    (generateComposite_soft_delayed envInc 1 [.compN 5 [] []] [] stEmpty {5} h1 h2).2.2.1⟩

theorem unload_store_of_nonempty (st : SceneState) (keep : Finset DataID) (hk : keep ≠ ∅) :
    (unload st keep).store =
      st.store.filter (fun p => decide (SKey.did p.1 ∈ st.wishlist ∨ p.1 ∈ keep)) := by
  unfold unload
  refine List.filter_congr ?_
  intro p _
  simp [hk]

theorem unload_keepables_survive (st : SceneState) (keep : Finset DataID) (i : DataID)
    (hk : keep ≠ ∅) (hi : i ∈ keep) (hs : containsId st.store i = true) :
    containsId (unload st keep).store i = true := by
  unfold unload containsId at *
  rw [List.any_eq_true] at hs ⊢
  obtain ⟨p, hp, hpi⟩ := hs
  refine ⟨p, List.mem_filter.mpr ⟨hp, ?_⟩, hpi⟩
  have hpe : p.1 = i := by simpa using hpi
  simp [hpe, hk, hi]

/-- C2: for a composite whose compositor call fails with the
incompatible-areas signal, the generation pass adds to keepables the
composite's own placeholder identity and every required and optional
prerequisite identity currently in the store, stores nothing under the
composite's identity, and the subsequent unload deletes exactly the stored
identities that are neither in the wishlist nor in keepables, so every stored
keepables identity survives it. -/
theorem generateComposite_incompatible_keepables (env : Env) (nm : DataID)
    (req opt : List Node) (st : SceneState) (keep : Finset DataID)
    (hnl : containsId st.store nm = false)
    (hok : (getPrereqDatasets env nm req st keep false).sig = .ok)
    (hinc : env.compRun nm (getPrereqDatasets env nm req st keep false).collected
      (getPrereqDatasets env nm opt (getPrereqDatasets env nm req st keep false).st
        (getPrereqDatasets env nm req st keep false).keep true).collected = .incompatibleAreas)
    (hns : containsId (getPrereqDatasets env nm opt
      (getPrereqDatasets env nm req st keep false).st
      (getPrereqDatasets env nm req st keep false).keep true).st.store nm = false) :
    nm ∈ (genComposite env (.compN nm req opt) st keep).2.1 ∧
    (∀ i ∈ nodeNames (getPrereqDatasets env nm req st keep false).nodes ∪
        nodeNames (getPrereqDatasets env nm opt (getPrereqDatasets env nm req st keep false).st
          (getPrereqDatasets env nm req st keep false).keep true).nodes,
      i ∈ storedIds (genComposite env (.compN nm req opt) st keep).1.store →
      i ∈ (genComposite env (.compN nm req opt) st keep).2.1) ∧
    (genComposite env (.compN nm req opt) st keep).1.store =
      (getPrereqDatasets env nm opt (getPrereqDatasets env nm req st keep false).st
        (getPrereqDatasets env nm req st keep false).keep true).st.store ∧
    containsId (genComposite env (.compN nm req opt) st keep).1.store nm = false ∧
    (∀ i ∈ (genComposite env (.compN nm req opt) st keep).2.1,
      containsId (genComposite env (.compN nm req opt) st keep).1.store i = true →
      containsId (unload (genComposite env (.compN nm req opt) st keep).1
        (genComposite env (.compN nm req opt) st keep).2.1).store i = true) ∧
    (unload (genComposite env (.compN nm req opt) st keep).1
        (genComposite env (.compN nm req opt) st keep).2.1).store =
      (genComposite env (.compN nm req opt) st keep).1.store.filter
        (fun p => decide (SKey.did p.1 ∈ (genComposite env (.compN nm req opt) st keep).1.wishlist ∨
          p.1 ∈ (genComposite env (.compN nm req opt) st keep).2.1)) := by
  rw [genComposite]
  simp only [hnl, Bool.false_eq_true, if_false, hok, reduceCtorEq, if_true, hinc]
  refine ⟨Finset.mem_insert_self _ _, ?_, trivial, hns, ?_, ?_⟩
  · intro i hi hstored
    exact Finset.mem_insert_of_mem
      (Finset.mem_union_right _ (Finset.mem_inter.mpr ⟨hstored, hi⟩))
  · intro i hi hstored
    exact unload_keepables_survive _ _ i (Finset.ne_empty_of_mem hi) hi hstored
  · exact unload_store_of_nonempty _ _ (Finset.ne_empty_of_mem (Finset.mem_insert_self _ _))

/-- Witness for C2: composite 1 requires the stored reader dataset 2; the
compositor signals incompatible areas; keepables gain 1. -/
theorem generateComposite_incompatible_keepables_witness :
    containsId stTwo.store 1 = false ∧
    (getPrereqDatasets envInc 1 [.readerN 2 "r"] stTwo ∅ false).sig = .ok ∧
    envInc.compRun 1 (getPrereqDatasets envInc 1 [.readerN 2 "r"] stTwo ∅ false).collected
      (getPrereqDatasets envInc 1 [] (getPrereqDatasets envInc 1 [.readerN 2 "r"] stTwo ∅ false).st
        (getPrereqDatasets envInc 1 [.readerN 2 "r"] stTwo ∅ false).keep true).collected =
      .incompatibleAreas ∧
    containsId (getPrereqDatasets envInc 1 []
      (getPrereqDatasets envInc 1 [.readerN 2 "r"] stTwo ∅ false).st
      (getPrereqDatasets envInc 1 [.readerN 2 "r"] stTwo ∅ false).keep true).st.store 1 = false ∧
    1 ∈ (genComposite envInc (.compN 1 [.readerN 2 "r"] []) stTwo ∅).2.1 := by
  have h1 : containsId stTwo.store 1 = false := rfl
  have h2 : (getPrereqDatasets envInc 1 [.readerN 2 "r"] stTwo ∅ false).sig = .ok := by
    simp [getPrereqDatasets, getPrereqLoop, finishPrereq, stTwo, containsId]
  have h3 : envInc.compRun 1
      (getPrereqDatasets envInc 1 [.readerN 2 "r"] stTwo ∅ false).collected
      (getPrereqDatasets envInc 1 [] (getPrereqDatasets envInc 1 [.readerN 2 "r"] stTwo ∅ false).st
        (getPrereqDatasets envInc 1 [.readerN 2 "r"] stTwo ∅ false).keep true).collected =
      .incompatibleAreas := rfl
  have h4 : containsId (getPrereqDatasets envInc 1 []
      (getPrereqDatasets envInc 1 [.readerN 2 "r"] stTwo ∅ false).st
      (getPrereqDatasets envInc 1 [.readerN 2 "r"] stTwo ∅ false).keep true).st.store 1 =
      false := by
    simp [getPrereqDatasets, getPrereqLoop, finishPrereq, stTwo, containsId]
  exact ⟨h1, h2, h3, h4,
    (generateComposite_incompatible_keepables envInc 1 [.readerN 2 "r"] [] stTwo ∅
      h1 h2 h3 h4).1⟩

/-- C3: for a CompositorNode with a hard-missing required prerequisite (the
collection raises KeyError), `_generate_composite` abandons the node for this
pass: the state, in particular the compositor-invocation log, is exactly as
the required-prerequisite collection left it (the compositor is never
invoked), the keepables set is returned exactly as the required collection
left it (no optional-prerequisite identities are added), and the node's
optional prerequisites are returned uncollected and untouched. -/
theorem generateComposite_hard_missing (env : Env) (nm : DataID) (req opt : List Node)
    (st : SceneState) (keep : Finset DataID)
    (hnl : containsId st.store nm = false)
    (hkey : (getPrereqDatasets env nm req st keep false).sig = .keyErr) :
    (genComposite env (.compN nm req opt) st keep).1 =
      (getPrereqDatasets env nm req st keep false).st ∧
    (genComposite env (.compN nm req opt) st keep).1.compLog =
      (getPrereqDatasets env nm req st keep false).st.compLog ∧
    (genComposite env (.compN nm req opt) st keep).2.1 =
      (getPrereqDatasets env nm req st keep false).keep ∧
    (genComposite env (.compN nm req opt) st keep).2.2 =
      .compN nm (getPrereqDatasets env nm req st keep false).nodes opt := by
  rw [genComposite]
  simp [hnl, hkey]

/-- Witness for C3: composite 1 requires the never-stored reader dataset 3;
the collection raises KeyError and generation adds nothing to keepables. -/
theorem generateComposite_hard_missing_witness :
    containsId stTwo.store 1 = false ∧
    (getPrereqDatasets envInc 1 [.readerN 3 "r"] stTwo ∅ false).sig = .keyErr ∧
    (genComposite envInc (.compN 1 [.readerN 3 "r"] [.readerN 2 "r"]) stTwo ∅).2.1 =
      (getPrereqDatasets envInc 1 [.readerN 3 "r"] stTwo ∅ false).keep := by
  have h1 : containsId stTwo.store 1 = false := rfl
  have h2 : (getPrereqDatasets envInc 1 [.readerN 3 "r"] stTwo ∅ false).sig = .keyErr := by
    simp [getPrereqDatasets, getPrereqLoop, finishPrereq, stTwo, containsId]
  exact ⟨h1, h2,
    (generateComposite_hard_missing envInc 1 [.readerN 3 "r"] [.readerN 2 "r"] stTwo ∅
      h1 h2).2.2.1⟩

/-- C7: when another grid's shape is an exact integer multiple of the coarsest
grid's shape on both axes, the finer grid's crop slice is the coarse slice
with start and stop multiplied by the integer per-axis ratio; in particular a
coarse slice 10:20 at ratio 2 becomes 20:40. -/
theorem crop_exact_ratio_scaling (srcShape coarseShape : Nat × Nat) (ys xs : Nat × Nat)
    (fy fx : Nat) (hcy : 0 < coarseShape.1) (hcx : 0 < coarseShape.2)
    (hy : srcShape.1 = fy * coarseShape.1) (hx : srcShape.2 = fx * coarseShape.2) :
    scaledSlices srcShape coarseShape ys xs =
      some ((ys.1 * fy, ys.2 * fy), (xs.1 * fx, xs.2 * fx)) ∧
    scaledSlices (200, 200) (100, 100) (10, 20) (10, 20) =
      some ((20, 40), (20, 40)) := by
  constructor
  · have h1 : srcShape.1 % coarseShape.1 = 0 := by rw [hy]; exact Nat.mul_mod_left fy _
    have h2 : srcShape.2 % coarseShape.2 = 0 := by rw [hx]; exact Nat.mul_mod_left fx _
    have h3 : srcShape.1 / coarseShape.1 = fy := by rw [hy]; exact Nat.mul_div_cancel fy hcy
    have h4 : srcShape.2 / coarseShape.2 = fx := by rw [hx]; exact Nat.mul_div_cancel fx hcx
    unfold scaledSlices
    simp [h1, h2, h3, h4]
  · rfl

/-- Witness for C7: shapes 200x200 over 100x100 give per-axis factor 2 and the
coarse slices 10:20 scale to 20:40. -/
theorem crop_exact_ratio_scaling_witness :
    0 < (100, 100).1 ∧ 0 < (100, 100).2 ∧
    (200, 200).1 = 2 * (100, 100).1 ∧ (200, 200).2 = 2 * (100, 100).2 ∧
    scaledSlices (200, 200) (100, 100) (10, 20) (10, 20) =
      some ((10 * 2, 20 * 2), (10 * 2, 20 * 2)) :=
  ⟨by decide, by decide, by decide, by decide,
    (crop_exact_ratio_scaling (200, 200) (100, 100) (10, 20) (10, 20) 2 2
      (by decide) (by decide) (by decide) (by decide)).1⟩

/-- C10: with no writer name given, writer selection maps .tif and .tiff to
the geotiff writer, .nc to the cf writer, .mitiff to the mitiff writer, and
every other extension to the simple_image writer, matching the extension
case-insensitively by lowercasing it. -/
theorem getWriterByExt_mapping (s : String) :
    ((strLower s = ".tif" ∨ strLower s = ".tiff") → getWriterByExt s = "geotiff") ∧
    (strLower s = ".nc" → getWriterByExt s = "cf") ∧
    (strLower s = ".mitiff" → getWriterByExt s = "mitiff") ∧
    (strLower s ≠ ".tif" → strLower s ≠ ".tiff" → strLower s ≠ ".nc" →
      strLower s ≠ ".mitiff" → getWriterByExt s = "simple_image") := by
  refine ⟨?_, ?_, ?_, ?_⟩
  · rintro (h | h) <;> simp [getWriterByExt, h, List.lookup]
  · intro h; simp [getWriterByExt, h, List.lookup]
  · intro h; simp [getWriterByExt, h, List.lookup]
  · intro h1 h2 h3 h4
    have e1 : (strLower s == ".tiff") = false := beq_eq_false_iff_ne.mpr h2
    have e2 : (strLower s == ".tif") = false := beq_eq_false_iff_ne.mpr h1
    have e3 : (strLower s == ".nc") = false := beq_eq_false_iff_ne.mpr h3
    have e4 : (strLower s == ".mitiff") = false := beq_eq_false_iff_ne.mpr h4
    simp [getWriterByExt, List.lookup, e1, e2, e3, e4]

/-- Witness for C10: mixed-case .TIF maps to geotiff and .png falls through to
simple_image. -/
theorem getWriterByExt_mapping_witness :
    (strLower ".TIF" = ".tif" ∨ strLower ".TIF" = ".tiff") ∧
    getWriterByExt ".TIF" = "geotiff" ∧
    strLower ".png" ≠ ".tif" ∧ strLower ".png" ≠ ".tiff" ∧ strLower ".png" ≠ ".nc" ∧
    strLower ".png" ≠ ".mitiff" ∧ getWriterByExt ".png" = "simple_image" := by
  have ha : strLower ".TIF" = ".tif" ∨ strLower ".TIF" = ".tiff" := Or.inl (by decide)
  have h1 : strLower ".png" ≠ ".tif" := by decide
  have h2 : strLower ".png" ≠ ".tiff" := by decide
  have h3 : strLower ".png" ≠ ".nc" := by decide
  have h4 : strLower ".png" ≠ ".mitiff" := by decide
  exact ⟨ha, (getWriterByExt_mapping ".TIF").1 ha, h1, h2, h3, h4,
    ((getWriterByExt_mapping ".png").2.2.2 h1 h2 h3 h4)⟩

theorem foldl_pick_max {A K : Type} [LinearOrder K] (key : A → K) (ys : List A) (x : A) :
    (ys.foldl (fun cur y => if decide (key cur < key y) then y else cur) x) ∈ x :: ys ∧
    ∀ b ∈ x :: ys,
      ¬ key (ys.foldl (fun cur y => if decide (key cur < key y) then y else cur) x) < key b := by
  induction ys generalizing x with
  | nil =>
    refine ⟨List.mem_singleton.mpr rfl, ?_⟩
    intro b hb
    rw [List.mem_singleton.mp hb]
    simp
  | cons y ys ih =>
    simp only [List.foldl_cons]
    by_cases hxy : key x < key y
    · rw [if_pos (by simpa using hxy)]
      obtain ⟨ihmem, ihmax⟩ := ih y
      refine ⟨?_, ?_⟩
      · rcases List.mem_cons.mp ihmem with h | h
        · rw [h]; exact List.mem_cons_of_mem _ (List.mem_cons_self _ _)
        · exact List.mem_cons_of_mem _ (List.mem_cons_of_mem _ h)
      · intro b hb
        rcases List.mem_cons.mp hb with hbx | hb2
        · rw [hbx]
          have hy := ihmax y (List.mem_cons_self _ _)
          intro hcon
          exact hy (hcon.trans hxy)
        · exact ihmax b hb2
    · rw [if_neg (by simpa using hxy)]
      obtain ⟨ihmem, ihmax⟩ := ih x
      refine ⟨?_, ?_⟩
      · rcases List.mem_cons.mp ihmem with h | h
        · rw [h]; exact List.mem_cons_self _ _
        · exact List.mem_cons_of_mem _ (List.mem_cons_of_mem _ h)
      · intro b hb
        rcases List.mem_cons.mp hb with hbx | hb2
        · rw [hbx]; exact ihmax x (List.mem_cons_self _ _)
        · rcases List.mem_cons.mp hb2 with hby | hbin
          · rw [hby]
            have hx := ihmax x (List.mem_cons_self _ _)
            intro hcon
            exact hx (hcon.trans_le (not_lt.mp hxy))
          · exact ihmax b (List.mem_cons_of_mem _ hbin)

theorem foldl_pick_min {A K : Type} [LinearOrder K] (key : A → K) (ys : List A) (x : A) :
    (ys.foldl (fun cur y => if decide (key y < key cur) then y else cur) x) ∈ x :: ys ∧
    ∀ b ∈ x :: ys,
      ¬ key b < key (ys.foldl (fun cur y => if decide (key y < key cur) then y else cur) x) := by
  induction ys generalizing x with
  | nil =>
    refine ⟨List.mem_singleton.mpr rfl, ?_⟩
    intro b hb
    rw [List.mem_singleton.mp hb]
    simp
  | cons y ys ih =>
    simp only [List.foldl_cons]
    by_cases hxy : key y < key x
    · rw [if_pos (by simpa using hxy)]
      obtain ⟨ihmem, ihmax⟩ := ih y
      refine ⟨?_, ?_⟩
      · rcases List.mem_cons.mp ihmem with h | h
        · rw [h]; exact List.mem_cons_of_mem _ (List.mem_cons_self _ _)
        · exact List.mem_cons_of_mem _ (List.mem_cons_of_mem _ h)
      · intro b hb
        rcases List.mem_cons.mp hb with hbx | hb2
        · rw [hbx]
          have hy := ihmax y (List.mem_cons_self _ _)
          intro hcon
          exact hy (hxy.trans hcon)
        · exact ihmax b hb2
    · rw [if_neg (by simpa using hxy)]
      obtain ⟨ihmem, ihmax⟩ := ih x
      refine ⟨?_, ?_⟩
      · rcases List.mem_cons.mp ihmem with h | h
        · rw [h]; exact List.mem_cons_self _ _
        · exact List.mem_cons_of_mem _ (List.mem_cons_of_mem _ h)
      · intro b hb
        rcases List.mem_cons.mp hb with hbx | hb2
        · rw [hbx]; exact ihmax x (List.mem_cons_self _ _)
        · rcases List.mem_cons.mp hb2 with hby | hbin
          · rw [hby]
            have hx := ihmax x (List.mem_cons_self _ _)
            intro hcon
            exact hx ((not_lt.mp hxy).trans_lt hcon)
          · exact ihmax b (List.mem_cons_of_mem _ hbin)

theorem pickBy_max_spec {A K : Type} [LinearOrder K] (key : A → K) (l : List A) (a : A)
    (h : pickBy (fun c y => decide (key c < key y)) l = some a) :
    a ∈ l ∧ ∀ b ∈ l, ¬ key a < key b := by
  match l with
  | [] => exact absurd h (by simp [pickBy])
  | x :: rest =>
    simp only [pickBy, Option.some.injEq] at h
    rw [← h]
    exact foldl_pick_max key rest x

theorem pickBy_min_spec {A K : Type} [LinearOrder K] (key : A → K) (l : List A) (a : A)
    (h : pickBy (fun c y => decide (key y < key c)) l = some a) :
    a ∈ l ∧ ∀ b ∈ l, ¬ key b < key a := by
  match l with
  | [] => exact absurd h (by simp [pickBy])
  | x :: rest =>
    simp only [pickBy, Option.some.injEq] at h
    rw [← h]
    exact foldl_pick_min key rest x

theorem compareAreaDefs_ok (better : AreaDef → AreaDef → Bool) (areas : List AreaDef)
    (a : AreaDef) (h : compareAreaDefs better areas = .ok a) :
    pickBy better areas = some a := by
  unfold compareAreaDefs at h
  match areas with
  | [] => exact absurd h (by simp)
  | a0 :: rest =>
    dsimp only at h
    split at h
    · split at h
      · rename_i val hval
        injection h with h2
        rw [h2] at hval
        exact hval
      · exact absurd h (by simp)
    · exact absurd h (by simp)

theorem keyOf_g1000_lt_g500 : AreaDef.keyOf g1000 < AreaDef.keyOf g500 := by
  simp only [AreaDef.keyOf, g1000, g500]
  exact (Prod.Lex.lt_iff _ _).mpr (Or.inl (by norm_num))

theorem keyOf_g500_not_lt_g2000 : ¬ AreaDef.keyOf g500 < AreaDef.keyOf g2000 := by
  simp only [AreaDef.keyOf, g500, g2000]
  intro hcon
  rcases (Prod.Lex.lt_iff _ _).mp hcon with h | ⟨he, h2⟩
  · norm_num at h
  · norm_num at he

theorem keyOf_g500_not_lt_g1000 : ¬ AreaDef.keyOf g500 < AreaDef.keyOf g1000 := by
  simp only [AreaDef.keyOf, g500, g1000]
  intro hcon
  rcases (Prod.Lex.lt_iff _ _).mp hcon with h | ⟨he, h2⟩
  · norm_num at h
  · norm_num at he

theorem keyOf_g2000_lt_g1000 : AreaDef.keyOf g2000 < AreaDef.keyOf g1000 := by
  simp only [AreaDef.keyOf, g2000, g1000]
  exact (Prod.Lex.lt_iff _ _).mpr (Or.inl (by norm_num))

theorem keyOf_gWide_lt_g500 : AreaDef.keyOf gWide < AreaDef.keyOf g500 := by
  simp only [AreaDef.keyOf, gWide, g500]
  exact (Prod.Lex.lt_iff _ _).mpr (Or.inl (by norm_num))

theorem specKeyOf_gWide_not_lt_g500 : ¬ AreaDef.specKeyOf gWide < AreaDef.specKeyOf g500 := by
  simp only [AreaDef.specKeyOf, gWide, g500]
  intro hcon
  rcases (Prod.Lex.lt_iff _ _).mp hcon with h | ⟨he, h2⟩
  · norm_num at h
  · norm_num at he

/-- Counterexample for C6: the grids gWide (pixel sizes 1000 across, 250 down)
and g500 (500 square), same CRS and extent.  The code's finest_area ranks by
the x-axis pixel size first and returns g500, while the claim's ordering
(finer of the two axis pixel sizes first) ranks gWide first, so finest_area
does not return the area ranking first under the claimed ordering. -/
theorem finestArea_claimed_ordering_cex :
    finestArea [gWide, g500] = .ok g500 ∧
    finestAreaSpec [gWide, g500] = .ok gWide ∧
    gWide ≠ g500 := by
  have hc1 : (g500.crs == gWide.crs) = true := rfl
  refine ⟨?_, ?_, by decide⟩
  · simp [finestArea, compareAreaDefs, pickBy, hc1, keyOf_gWide_lt_g500]
  · simp [finestAreaSpec, compareAreaDefs, pickBy, hc1, specKeyOf_gWide_not_lt_g500]

/-- C6 (amended): for a non-empty same-CRS collection of uniform grids,
finest_area returns an element of the collection maximal under the code's key
ordering — inverse absolute x pixel size first, then inverse absolute y pixel
size, then extent, then area name — and coarsest_area one minimal under it
(the amendment: the code compares the x-axis pixel size first, not the finer
of the two axes); in particular for the three same-CRS same-extent grids with
square pixels of 500, 1000 and 2000 units, finest_area returns the 500 grid
and coarsest_area the 2000 grid. -/
theorem finestArea_coarsestArea_ranking :
    (∀ areas a, finestArea areas = .ok a →
      a ∈ areas ∧ ∀ b ∈ areas, ¬ AreaDef.keyOf a < AreaDef.keyOf b) ∧
    (∀ areas a, coarsestArea areas = .ok a →
      a ∈ areas ∧ ∀ b ∈ areas, ¬ AreaDef.keyOf b < AreaDef.keyOf a) ∧
    finestArea [g1000, g500, g2000] = .ok g500 ∧
    coarsestArea [g1000, g500, g2000] = .ok g2000 := by
  have hc1 : (g500.crs == g1000.crs) = true := rfl
  have hc2 : (g2000.crs == g1000.crs) = true := rfl
  refine ⟨?_, ?_, ?_, ?_⟩
  · intro areas a h
    exact pickBy_max_spec AreaDef.keyOf areas a (compareAreaDefs_ok _ areas a h)
  · intro areas a h
    exact pickBy_min_spec AreaDef.keyOf areas a (compareAreaDefs_ok _ areas a h)
  · simp [finestArea, compareAreaDefs, pickBy, hc1, hc2, keyOf_g1000_lt_g500,
      keyOf_g500_not_lt_g2000]
  · simp [coarsestArea, compareAreaDefs, pickBy, hc1, hc2, keyOf_g500_not_lt_g1000,
      keyOf_g2000_lt_g1000]

/-- Witness for C6 (amended): applying the ranking characterization to the
singleton collection of g500 whose finest area is g500 itself. -/
theorem finestArea_coarsestArea_ranking_witness :
    finestArea [g500] = .ok g500 ∧
    (g500 ∈ [g500] ∧ ∀ b ∈ [g500], ¬ AreaDef.keyOf g500 < AreaDef.keyOf b) := by
  have h : finestArea [g500] = .ok g500 := rfl
  exact ⟨h, finestArea_coarsestArea_ranking.1 [g500] g500 h⟩

theorem lookupC_map_keyfix (store : List (DataID × CDset)) (g : DataID × CDset → DataID × CDset)
    (i : DataID) (hkey : ∀ p, (g p).1 = p.1) (hfix : ∀ p, p.1 = i → g p = p) :
    lookupC (store.map g) i = lookupC store i := by
  induction store with
  | nil => rfl
  | cons p t ih =>
    by_cases hp : p.1 = i
    · rw [List.map_cons, hfix p hp]
      have h2 : (p.1 == i) = true := by simp [hp]
      simp only [lookupC, List.find?_cons, h2]
    · have h1 : ((g p).1 == i) = false := by simp [hkey p, hp]
      have h2 : (p.1 == i) = false := by simp [hp]
      simp only [lookupC, List.map_cons, List.find?_cons, h1, h2] at ih ⊢
      exact ih

theorem sliceGroup_lookup_not_mem (store : List (DataID × CDset)) (ids : List DataID)
    (na : CArea) (ys xs : Nat × Nat) (i : DataID) (hi : i ∉ ids) :
    lookupC (sliceGroup store ids na ys xs) i = lookupC store i := by
  induction ids generalizing store with
  | nil => rfl
  | cons j t ih =>
    have hij : i ≠ j := fun h => hi (by rw [h]; exact List.mem_cons_self _ _)
    have step : lookupC (store.map (fun p =>
        if p.1 = j then (p.1, {p.2 with slices := p.2.slices ++ [(ys, xs)], area := some na})
        else p)) i = lookupC store i := by
      refine lookupC_map_keyfix store _ i (fun p => ?_) (fun p hp => ?_)
      · dsimp only
        split <;> rfl
      · dsimp only
        rw [if_neg]
        rw [hp]
        exact fun hc => hij hc
    simp only [sliceGroup, List.foldl_cons] at ih ⊢
    rw [ih _ (fun h => hi (List.mem_cons_of_mem _ h)), step]

theorem addAreaGroup_mem_src (acc : List (Option CArea × List DataID)) (a : Option CArea)
    (i : DataID) (g : Option CArea × List DataID) (hg : g ∈ addAreaGroup acc a i)
    (j : DataID) (hj : j ∈ g.2) :
    (∃ g' ∈ acc, g'.1 = g.1 ∧ j ∈ g'.2) ∨ (j = i ∧ g.1 = a) := by
  induction acc with
  | nil =>
    simp only [addAreaGroup, List.mem_singleton] at hg
    subst hg
    simp only [List.mem_singleton] at hj
    exact Or.inr ⟨hj, rfl⟩
  | cons g0 gs ih =>
    simp only [addAreaGroup] at hg
    split at hg
    · rename_i heq
      rcases List.mem_cons.mp hg with h | h
      · subst h
        rcases List.mem_append.mp hj with h2 | h2
        · exact Or.inl ⟨g0, List.mem_cons_self _ _, rfl, h2⟩
        · exact Or.inr ⟨List.mem_singleton.mp h2, heq⟩
      · exact Or.inl ⟨g, List.mem_cons_of_mem _ h, rfl, hj⟩
    · rcases List.mem_cons.mp hg with h | h
      · subst h
        exact Or.inl ⟨g, List.mem_cons_self _ _, rfl, hj⟩
      · rcases ih h with ⟨g2, hg2, he, hj2⟩ | hr
        · exact Or.inl ⟨g2, List.mem_cons_of_mem _ hg2, he, hj2⟩
        · exact Or.inr hr

theorem iterByArea_fold_mem (l : List (DataID × CDset)) :
    ∀ (acc : List (Option CArea × List DataID)) (g : Option CArea × List DataID),
    g ∈ l.foldl (fun acc p => addAreaGroup acc p.2.area p.1) acc →
    ∀ j, j ∈ g.2 →
    (∃ g' ∈ acc, g'.1 = g.1 ∧ j ∈ g'.2) ∨ (∃ d, (j, d) ∈ l ∧ d.area = g.1) := by
  induction l with
  | nil =>
    intro acc g hg j hj
    exact Or.inl ⟨g, hg, rfl, hj⟩
  | cons p t ih =>
    intro acc g hg j hj
    simp only [List.foldl_cons] at hg
    rcases ih _ g hg j hj with ⟨g2, hg2, he, hj2⟩ | ⟨d, hd, ha⟩
    · rcases addAreaGroup_mem_src acc p.2.area p.1 g2 hg2 j hj2 with ⟨g3, h3, he3, hj3⟩ | ⟨hji, hga⟩
      · exact Or.inl ⟨g3, h3, he3.trans he, hj3⟩
      · refine Or.inr ⟨p.2, ?_, ?_⟩
        · rw [hji]
          have : (p.1, p.2) = p := rfl
          rw [this]
          exact List.mem_cons_self _ _
        · rw [← hga, he]
    · exact Or.inr ⟨d, List.mem_cons_of_mem _ hd, ha⟩

theorem iterByArea_mem (store : List (DataID × CDset)) (g : Option CArea × List DataID)
    (hg : g ∈ iterByArea store) (j : DataID) (hj : j ∈ g.2) :
    ∃ d, (j, d) ∈ store ∧ d.area = g.1 := by
  rcases iterByArea_fold_mem store [] g hg j hj with ⟨g2, hg2, _, _⟩ | h
  · exact absurd hg2 (List.not_mem_nil g2)
  · exact h

theorem lookupC_eq_of_mem_nodup (store : List (DataID × CDset)) (i : DataID) (d : CDset)
    (hnd : (store.map Prod.fst).Nodup) (hmem : (i, d) ∈ store) :
    lookupC store i = some d := by
  induction store with
  | nil => exact absurd hmem (List.not_mem_nil _)
  | cons p t ih =>
    rw [List.map_cons, List.nodup_cons] at hnd
    rcases List.mem_cons.mp hmem with h | h
    · rw [← h]
      simp [lookupC, List.find?_cons]
    · have hne : (p.1 == i) = false := by
        simp only [beq_eq_false_iff_ne, ne_eq]
        intro hc
        exact hnd.1 (hc ▸ List.mem_map.mpr ⟨(i, d), h, rfl⟩)
      simp only [lookupC, List.find?_cons, hne]
      exact ih hnd.2 h

theorem lookupC_some_mem (store : List (DataID × CDset)) (i : DataID) (d : CDset)
    (h : lookupC store i = some d) : (i, d) ∈ store := by
  unfold lookupC at h
  rcases hf : store.find? (fun p => p.1 == i) with _ | p
  · rw [hf] at h; exact absurd h (by simp)
  · rw [hf] at h
    simp only [Option.map_some', Option.some.injEq] at h
    have hpmem := List.mem_of_find?_eq_some hf
    have hpk := List.find?_some hf
    simp only [beq_iff_eq] at hpk
    have : p = (i, d) := by
      cases p
      simp_all
    rw [← this]
    exact hpmem

theorem cropLoop_fold_lookup (coarseShape ys xs : Nat × Nat) (i : DataID) :
    ∀ (gl : List (Option CArea × List DataID)),
    (∀ g ∈ gl, ∀ a, g.1 = some a →
      (scaledSlices a.shape coarseShape ys xs).isSome = true → i ∉ g.2) →
    ∀ st acc2, lookupC (gl.foldl (cropStep coarseShape ys xs) (st, acc2)).1 i = lookupC st i := by
  intro gl
  induction gl with
  | nil => intro _ st acc2; rfl
  | cons g rest ih =>
    intro hsafe st acc2
    have hrest := fun g2 h => hsafe g2 (List.mem_cons_of_mem _ h)
    simp only [List.foldl_cons]
    rcases hg1 : g.1 with _ | a
    · rw [show cropStep coarseShape ys xs (st, acc2) g = (st, acc2) by
        unfold cropStep; rw [hg1]]
      exact ih hrest st acc2
    · rcases hs : scaledSlices a.shape coarseShape ys xs with _ | sl
      · rw [show cropStep coarseShape ys xs (st, acc2) g = (st, acc2 ++ [a]) by
          unfold cropStep; simp only [hg1, hs]]
        exact ih hrest st (acc2 ++ [a])
      · rw [show cropStep coarseShape ys xs (st, acc2) g =
            (sliceGroup st g.2 (sliceCArea a sl.1 sl.2) sl.1 sl.2, acc2) by
          unfold cropStep; simp only [hg1, hs]]
        rw [ih hrest _ acc2]
        exact sliceGroup_lookup_not_mem st g.2 _ _ _ i
          (hsafe g (List.mem_cons_self _ _) a hg1 (by rw [hs]; rfl))

theorem cropLoop_fold_target_monot (coarseShape ys xs : Nat × Nat) (x : CArea) :
    ∀ (gl : List (Option CArea × List DataID)) (st : List (DataID × CDset)) (acc2 : List CArea),
    x ∈ acc2 → x ∈ (gl.foldl (cropStep coarseShape ys xs) (st, acc2)).2 := by
  intro gl
  induction gl with
  | nil => intro st acc2 hx; exact hx
  | cons g rest ih =>
    intro st acc2 hx
    simp only [List.foldl_cons]
    rcases hg1 : g.1 with _ | a
    · rw [show cropStep coarseShape ys xs (st, acc2) g = (st, acc2) by
        unfold cropStep; simp only [hg1]]
      exact ih st acc2 hx
    · rcases hs : scaledSlices a.shape coarseShape ys xs with _ | sl
      · rw [show cropStep coarseShape ys xs (st, acc2) g = (st, acc2 ++ [a]) by
          unfold cropStep; simp only [hg1, hs]]
        exact ih st (acc2 ++ [a]) (List.mem_append.mpr (Or.inl hx))
      · rw [show cropStep coarseShape ys xs (st, acc2) g =
            (sliceGroup st g.2 (sliceCArea a sl.1 sl.2) sl.1 sl.2, acc2) by
          unfold cropStep; simp only [hg1, hs]]
        exact ih _ acc2 hx

theorem cropLoop_fold_target (coarseShape ys xs : Nat × Nat) (a : CArea) :
    ∀ (gl : List (Option CArea × List DataID)) (g : Option CArea × List DataID),
    g ∈ gl → g.1 = some a → scaledSlices a.shape coarseShape ys xs = none →
    ∀ st acc2, a ∈ (gl.foldl (cropStep coarseShape ys xs) (st, acc2)).2 := by
  intro gl
  induction gl with
  | nil => intro g hg; exact absurd hg (List.not_mem_nil g)
  | cons g0 rest ih =>
    intro g hg hga hs st acc2
    simp only [List.foldl_cons]
    rcases List.mem_cons.mp hg with h | h
    · subst h
      rw [show cropStep coarseShape ys xs (st, acc2) g = (st, acc2 ++ [a]) by
        unfold cropStep; simp only [hga, hs]]
      exact cropLoop_fold_target_monot coarseShape ys xs a rest st (acc2 ++ [a])
        (List.mem_append.mpr (Or.inr (List.mem_singleton.mpr rfl)))
    · exact ih g h hga hs _ _




theorem addAreaGroup_exists (acc : List (Option CArea × List DataID)) (a : Option CArea)
    (i : DataID) : ∃ g ∈ addAreaGroup acc a i, g.1 = a ∧ i ∈ g.2 := by
  induction acc with
  | nil => exact ⟨(a, [i]), List.mem_singleton.mpr rfl, rfl, List.mem_singleton.mpr rfl⟩
  | cons g0 gs ih =>
    simp only [addAreaGroup]
    split
    · rename_i heq
      exact ⟨(g0.1, g0.2 ++ [i]), List.mem_cons_self _ _, heq,
        List.mem_append.mpr (Or.inr (List.mem_singleton.mpr rfl))⟩
    · obtain ⟨g, hg, he, hi⟩ := ih
      exact ⟨g, List.mem_cons_of_mem _ hg, he, hi⟩

theorem addAreaGroup_preserve (acc : List (Option CArea × List DataID)) (b : Option CArea)
    (j : DataID) (a : Option CArea) (i : DataID)
    (h : ∃ g ∈ acc, g.1 = a ∧ i ∈ g.2) :
    ∃ g ∈ addAreaGroup acc b j, g.1 = a ∧ i ∈ g.2 := by
  induction acc with
  | nil =>
    obtain ⟨g, hg, _⟩ := h
    exact absurd hg (List.not_mem_nil g)
  | cons g0 gs ih =>
    obtain ⟨g, hg, he, hi⟩ := h
    simp only [addAreaGroup]
    split
    · rcases List.mem_cons.mp hg with h1 | h1
      · subst h1
        exact ⟨(g.1, g.2 ++ [j]), List.mem_cons_self _ _, he, List.mem_append.mpr (Or.inl hi)⟩
      · exact ⟨g, List.mem_cons_of_mem _ h1, he, hi⟩
    · rcases List.mem_cons.mp hg with h1 | h1
      · subst h1
        exact ⟨g, List.mem_cons_self _ _, he, hi⟩
      · obtain ⟨g2, hg2, he2, hi2⟩ := ih ⟨g, h1, he, hi⟩
        exact ⟨g2, List.mem_cons_of_mem _ hg2, he2, hi2⟩

theorem iterByArea_fold_preserve (a : Option CArea) (i : DataID) :
    ∀ (l : List (DataID × CDset)) (acc : List (Option CArea × List DataID)),
    (∃ g ∈ acc, g.1 = a ∧ i ∈ g.2) →
    ∃ g ∈ l.foldl (fun acc p => addAreaGroup acc p.2.area p.1) acc, g.1 = a ∧ i ∈ g.2 := by
  intro l
  induction l with
  | nil => intro acc h; exact h
  | cons p t ih =>
    intro acc h
    simp only [List.foldl_cons]
    exact ih _ (addAreaGroup_preserve acc p.2.area p.1 a i h)

theorem iterByArea_fold_exists (i : DataID) (d : CDset) :
    ∀ (l : List (DataID × CDset)) (acc : List (Option CArea × List DataID)),
    (i, d) ∈ l →
    ∃ g ∈ l.foldl (fun acc p => addAreaGroup acc p.2.area p.1) acc,
      g.1 = d.area ∧ i ∈ g.2 := by
  intro l
  induction l with
  | nil => intro acc h; exact absurd h (List.not_mem_nil _)
  | cons p t ih =>
    intro acc h
    simp only [List.foldl_cons]
    rcases List.mem_cons.mp h with h1 | h1
    · rw [← h1]
      exact iterByArea_fold_preserve d.area i t _ (addAreaGroup_exists acc d.area i)
    · exact ih _ h1

/-- C8: in `Scene.crop`, a dataset whose area shape is not an exact integer
multiple of the coarsest area's shape in both axes is returned in the new
Scene completely unchanged — the returned store still maps its identity to
the original dataset, data and area untouched — while the independently
computed slice target for its area is only recorded in the local
new_target_areas mapping (the second component of the loop), which the
returned Scene (cropStore) discards. -/
theorem crop_inexact_area_unchanged (coarseShape ys xs : Nat × Nat)
    (store : List (DataID × CDset)) (i : DataID) (ds : CDset) (a : CArea)
    (hnd : (store.map Prod.fst).Nodup)
    (hlook : lookupC store i = some ds)
    (harea : ds.area = some a)
    (hratio : scaledSlices a.shape coarseShape ys xs = none) :
    lookupC (cropStore coarseShape ys xs store) i = some ds ∧
    a ∈ (cropLoop coarseShape ys xs store).2 := by
  have hmem := lookupC_some_mem store i ds hlook
  have hsafe : ∀ g ∈ iterByArea store, ∀ b, g.1 = some b →
      (scaledSlices b.shape coarseShape ys xs).isSome = true → i ∉ g.2 := by
    intro g hg b hgb hbs hig
    obtain ⟨d2, hd2, hd2a⟩ := iterByArea_mem store g hg i hig
    have e := lookupC_eq_of_mem_nodup store i d2 hnd hd2
    rw [hlook] at e
    injection e with e2
    rw [← e2, harea] at hd2a
    rw [← hd2a] at hgb
    injection hgb with e3
    rw [← e3] at hbs
    rw [hratio] at hbs
    exact absurd hbs (by simp)
  constructor
  · unfold cropStore cropLoop
    rw [cropLoop_fold_lookup coarseShape ys xs i (iterByArea store) hsafe store []]
    exact hlook
  · obtain ⟨g, hg, hga, hgi⟩ := iterByArea_fold_exists i ds store [] hmem
    unfold cropLoop
    exact cropLoop_fold_target coarseShape ys xs a (iterByArea store) g hg
      (by rw [hga, harea]) hratio store []

theorem crop_inexact_area_unchanged_witness :
    (([(1, (⟨7, [], some ⟨3, (150, 150)⟩⟩ : CDset))].map Prod.fst).Nodup) ∧
    lookupC [(1, (⟨7, [], some ⟨3, (150, 150)⟩⟩ : CDset))] 1 =
      some ⟨7, [], some ⟨3, (150, 150)⟩⟩ ∧
    (⟨7, [], some ⟨3, (150, 150)⟩⟩ : CDset).area = some ⟨3, (150, 150)⟩ ∧
    scaledSlices (150, 150) (100, 100) (10, 20) (10, 20) = none ∧
    lookupC (cropStore (100, 100) (10, 20) (10, 20)
      [(1, (⟨7, [], some ⟨3, (150, 150)⟩⟩ : CDset))]) 1 =
      some ⟨7, [], some ⟨3, (150, 150)⟩⟩ := by
  have h1 : (([(1, (⟨7, [], some ⟨3, (150, 150)⟩⟩ : CDset))].map Prod.fst).Nodup) := by decide
  have h2 : lookupC [(1, (⟨7, [], some ⟨3, (150, 150)⟩⟩ : CDset))] 1 =
      some ⟨7, [], some ⟨3, (150, 150)⟩⟩ := rfl
  have h3 : (⟨7, [], some ⟨3, (150, 150)⟩⟩ : CDset).area = some ⟨3, (150, 150)⟩ := rfl
  have h4 : scaledSlices (150, 150) (100, 100) (10, 20) (10, 20) = none := rfl
  exact ⟨h1, h2, h3, h4,
    (crop_inexact_area_unchanged (100, 100) (10, 20) (10, 20)
      [(1, ⟨7, [], some ⟨3, (150, 150)⟩⟩)] 1 ⟨7, [], some ⟨3, (150, 150)⟩⟩
      ⟨3, (150, 150)⟩ h1 h2 h3 h4).1⟩

/-- C4: when at least one requested key that is still needed cannot be mapped
to any reader or compositor node, `load` raises the lookup error (the KeyError
of `_update_dependency_tree` wrapping the tree's MissingDependencies), and the
error names every needed requested key that is unresolvable — not only the
first — and nothing but unresolvable keys. -/
theorem load_unresolvable_names_all (env : Env) (fuel : Nat) (keys : Finset SKey)
    (generate unloadFlag : Bool) (s : SceneState) (k : SKey)
    (hk : k ∈ keys) (hneed : keyNeeded s k = true)
    (hunres : resolveKey env s.treeCache k = none) :
    ∃ U, (loadScene env fuel keys generate unloadFlag s).2 = some (.unresolvable U) ∧
      (∀ x ∈ keys, keyNeeded s x = true → resolveKey env s.treeCache x = none → x ∈ U) ∧
      (∀ x ∈ U, resolveKey env s.treeCache x = none) := by
  have hkU : k ∈ (((s.wishlist ∪ keys).filter (fun x => keyNeeded s x = true)).filter
      (fun x => resolveKey env s.treeCache x = none)) :=
    Finset.mem_filter.mpr
      ⟨Finset.mem_filter.mpr ⟨Finset.mem_union_right _ hk, hneed⟩, hunres⟩
  have hne : (((s.wishlist ∪ keys).filter (fun x => keyNeeded s x = true)).filter
      (fun x => resolveKey env s.treeCache x = none)) ≠ ∅ :=
    Finset.ne_empty_of_mem hkU
  refine ⟨((s.wishlist ∪ keys).filter (fun x => keyNeeded s x = true)).filter
      (fun x => resolveKey env s.treeCache x = none), ?_, ?_, ?_⟩
  · unfold loadScene populateWithKeys
    dsimp only
    rw [if_pos hne]
  · intro x hx hxneed hxres
    exact Finset.mem_filter.mpr
      ⟨Finset.mem_filter.mpr ⟨Finset.mem_union_right _ hx, hxneed⟩, hxres⟩
  · intro x hx
    exact (Finset.mem_filter.mp hx).2

/-- Witness for C4: requesting the unknown raw key 9 on an empty scene raises
the aggregated lookup error naming it. -/
theorem load_unresolvable_names_all_witness :
    SKey.raw 9 ∈ ({SKey.raw 9} : Finset SKey) ∧
    keyNeeded stEmpty (SKey.raw 9) = true ∧
    resolveKey envInc stEmpty.treeCache (SKey.raw 9) = none ∧
    ∃ U, (loadScene envInc 1 {SKey.raw 9} true true stEmpty).2 =
        some (.unresolvable U) ∧
      (∀ x ∈ ({SKey.raw 9} : Finset SKey), keyNeeded stEmpty x = true →
        resolveKey envInc stEmpty.treeCache x = none → x ∈ U) ∧
      (∀ x ∈ U, resolveKey envInc stEmpty.treeCache x = none) := by
  have h1 : SKey.raw 9 ∈ ({SKey.raw 9} : Finset SKey) := Finset.mem_singleton.mpr rfl
  have h2 : keyNeeded stEmpty (SKey.raw 9) = true := rfl
  have h3 : resolveKey envInc stEmpty.treeCache (SKey.raw 9) = none := rfl
  exact ⟨h1, h2, h3,
    load_unresolvable_names_all envInc 1 {SKey.raw 9} true true stEmpty
      (SKey.raw 9) h1 h2 h3⟩

/-- C9: a load call that raises the unresolvable-key lookup error leaves the
wishlist, the dataset store and the reader log exactly as they were before
the call: the wishlist merge and all reader loads happen only after
dependency-tree resolution succeeds (only the tree registry may change). -/
theorem load_error_preserves_state (env : Env) (fuel : Nat) (keys : Finset SKey)
    (generate unloadFlag : Bool) (s : SceneState) (e : LoadErr)
    (h : (loadScene env fuel keys generate unloadFlag s).2 = some e) :
    (loadScene env fuel keys generate unloadFlag s).1.store = s.store ∧
    (loadScene env fuel keys generate unloadFlag s).1.wishlist = s.wishlist ∧
    (loadScene env fuel keys generate unloadFlag s).1.readerLog = s.readerLog := by
  unfold loadScene at h ⊢
  dsimp only at h ⊢
  split at h
  · split
    · exact ⟨rfl, rfl, rfl⟩
    · rename_i hcond hcond2
      exact absurd hcond hcond2
  · exact absurd h (by simp)

/-- Witness for C9: the failing load of the unknown raw key 9 leaves the empty
scene's store, wishlist and reader log unchanged. -/
theorem load_error_preserves_state_witness :
    (loadScene envInc 1 {SKey.raw 9} true true stEmpty).2 =
      some (.unresolvable {SKey.raw 9}) ∧
    (loadScene envInc 1 {SKey.raw 9} true true stEmpty).1.store = stEmpty.store ∧
    (loadScene envInc 1 {SKey.raw 9} true true stEmpty).1.wishlist = stEmpty.wishlist ∧
    (loadScene envInc 1 {SKey.raw 9} true true stEmpty).1.readerLog = stEmpty.readerLog := by
  have h : (loadScene envInc 1 {SKey.raw 9} true true stEmpty).2 =
      some (.unresolvable {SKey.raw 9}) := by decide
  exact ⟨h, load_error_preserves_state envInc 1 {SKey.raw 9} true true stEmpty _ h⟩

theorem missingKeys_congr (s s1 : SceneState) (hst : s.store = s1.store)
    (hwl : s.wishlist = s1.wishlist) : missingKeys s = missingKeys s1 := by
  unfold missingKeys
  rw [hwl]
  refine Finset.filter_congr ?_
  intro k _
  unfold keyNeeded
  cases k with
  | raw r => exact Iff.rfl
  | did d => rw [hst]

theorem readFromStorage_no_missing (env : Env) (fuel : Nat) (s : SceneState)
    (hm : missingKeys s = ∅) : readFromStorage env fuel s = s := by
  unfold readFromStorage missingDids sortedKeys
  rw [hm, Finset.sort_empty]
  rfl

theorem unload_no_delete (s : SceneState)
    (hs : ∀ p ∈ s.store, SKey.did p.1 ∈ s.wishlist) : unload s ∅ = s := by
  unfold unload
  dsimp only
  have hf : s.store.filter (fun p => decide (SKey.did p.1 ∈ s.wishlist ∨
      ((∅ : Finset DataID) ≠ ∅ ∧ p.1 ∈ (∅ : Finset DataID)))) = s.store := by
    refine List.filter_eq_self.mpr ?_
    intro p hp
    simp [hs p hp]
  rw [hf]

theorem generate_no_missing (env : Env) (fuel : Nat) (u : Bool) (s : SceneState)
    (hm : missingKeys s = ∅) (hs : ∀ p ∈ s.store, SKey.did p.1 ∈ s.wishlist) :
    generatePossibleComposites env fuel u s = s := by
  unfold generatePossibleComposites
  have hmd : missingDids s = [] := by
    unfold missingDids sortedKeys
    rw [hm, Finset.sort_empty]
    rfl
  rw [hmd]
  dsimp only [List.filterMap_nil, List.foldl_nil]
  have hif : (if missingKeys s ≠ ∅ then removeFailedDatasets s ∅ else s) = s :=
    if_neg (by simp [hm])
  rw [hif]
  cases u with
  | false => rfl
  | true => exact unload_no_delete s hs

theorem load_tail_eq (env : Env) (fuel : Nat) (g u : Bool) (s2 s1 : SceneState)
    (ha : s2.store = s1.store) (hb : s2.wishlist = s1.wishlist)
    (hc : s2.readerLog = s1.readerLog)
    (hmiss : missingKeys s1 = ∅)
    (hsub : ∀ p ∈ s1.store, SKey.did p.1 ∈ s1.wishlist) :
    (if g then generatePossibleComposites env fuel u (readFromStorage env fuel s2)
      else readFromStorage env fuel s2).store = s1.store ∧
    (if g then generatePossibleComposites env fuel u (readFromStorage env fuel s2)
      else readFromStorage env fuel s2).wishlist = s1.wishlist ∧
    (if g then generatePossibleComposites env fuel u (readFromStorage env fuel s2)
      else readFromStorage env fuel s2).readerLog = s1.readerLog := by
  have hm2 : missingKeys s2 = ∅ := (missingKeys_congr s2 s1 ha hb).trans hmiss
  have hs2 : ∀ p ∈ s2.store, SKey.did p.1 ∈ s2.wishlist := by
    rw [ha, hb]
    exact hsub
  rw [readFromStorage_no_missing env fuel s2 hm2]
  cases g with
  | false => exact ⟨ha, hb, hc⟩
  | true =>
    rw [generate_no_missing env fuel u s2 hm2 hs2]
    exact ⟨ha, hb, hc⟩

/-- C5 (amended): re-issuing load([x]) with identical arguments is a no-op on
the dataset store and the wishlist and performs no reader loads, PROVIDED the
first call left no keepables-protected datasets behind (every stored identity
is in the wishlist), everything wished is loaded (missing is empty), and x
resolves, as any key successfully loaded by the first call does, to an
identity already in the wishlist.  Without the proviso a second identical
call can unload datasets that only the first call's keepables protected (see
the counterexample). -/
theorem load_idempotent_amended (env : Env) (fuel : Nat) (generate unloadFlag : Bool)
    (x : SKey) (s1 : SceneState)
    (hmiss : missingKeys s1 = ∅)
    (hsub : ∀ p ∈ s1.store, SKey.did p.1 ∈ s1.wishlist)
    (hres : ∀ d, resolveKey env s1.treeCache x = some d → SKey.did d ∈ s1.wishlist) :
    (loadScene env fuel {x} generate unloadFlag s1).1.store = s1.store ∧
    (loadScene env fuel {x} generate unloadFlag s1).1.wishlist = s1.wishlist ∧
    (loadScene env fuel {x} generate unloadFlag s1).1.readerLog = s1.readerLog := by
  have hwl : ∀ y ∈ s1.wishlist, ¬ keyNeeded s1 y = true := by
    have hm := hmiss
    unfold missingKeys at hm
    exact fun y hy => Finset.filter_eq_empty_iff.mp hm hy
  by_cases hxn : keyNeeded s1 x = true
  · have hneed : (s1.wishlist ∪ {x}).filter (fun k => keyNeeded s1 k = true) = {x} := by
      ext y
      simp only [Finset.mem_filter, Finset.mem_union, Finset.mem_singleton]
      constructor
      · rintro ⟨hy | hy, hk⟩
        · exact absurd hk (hwl y hy)
        · exact hy
      · rintro rfl
        exact ⟨Or.inr rfl, hxn⟩
    rcases hx : resolveKey env s1.treeCache x with _ | d
    · have hunres : ({x} : Finset SKey).filter
          (fun k => resolveKey env s1.treeCache k = none) = {x} := by
        rw [Finset.filter_singleton, if_pos hx]
      unfold loadScene populateWithKeys
      dsimp only
      rw [hneed, hunres, if_pos (Finset.ne_empty_of_mem (Finset.mem_singleton_self x))]
      exact ⟨rfl, rfl, rfl⟩
    · have hun2 : ({x} : Finset SKey).filter
          (fun k => resolveKey env s1.treeCache k = none) = ∅ := by
        rw [Finset.filter_singleton, if_neg (by simp [hx])]
      have hresolved : ({x} : Finset SKey).biUnion
          (fun k => (resolveKey env s1.treeCache k).toFinset) = {d} := by
        rw [Finset.singleton_biUnion, hx]
        rfl
      unfold loadScene populateWithKeys
      dsimp only
      rw [hneed, hun2, hresolved, if_neg (by simp)]
      refine load_tail_eq env fuel generate unloadFlag _ s1 rfl ?_ rfl hmiss hsub
      show s1.wishlist ∪ ({d} : Finset DataID).image SKey.did = s1.wishlist
      rw [Finset.image_singleton]
      exact Finset.union_eq_left.mpr (Finset.singleton_subset_iff.mpr (hres d hx))
  · have hneed0 : (s1.wishlist ∪ {x}).filter (fun k => keyNeeded s1 k = true) = ∅ := by
      refine Finset.filter_eq_empty_iff.mpr ?_
      intro y hy
      rcases Finset.mem_union.mp hy with h | h
      · exact hwl y h
      · rw [Finset.mem_singleton.mp h]
        exact hxn
    unfold loadScene populateWithKeys
    dsimp only
    rw [hneed0, Finset.filter_empty, if_neg (by simp)]
    refine load_tail_eq env fuel generate unloadFlag _ s1 rfl ?_ rfl hmiss hsub
    show s1.wishlist ∪ (((∅ : Finset SKey).biUnion
      (fun k => (resolveKey env s1.treeCache k).toFinset)).image SKey.did) = s1.wishlist
    simp

/-- Witness for C5 (amended): a scene holding dataset 1 in store and wishlist
with the raw key 0 cached to it; a repeated load of raw key 0 changes neither
store nor wishlist nor the reader log. -/
theorem load_idempotent_amended_witness :
    missingKeys stOne = ∅ ∧
    (∀ p ∈ stOne.store, SKey.did p.1 ∈ stOne.wishlist) ∧
    (loadScene envInc 3 {SKey.raw 0} true true stOne).1.store = stOne.store ∧
    (loadScene envInc 3 {SKey.raw 0} true true stOne).1.wishlist = stOne.wishlist ∧
    (loadScene envInc 3 {SKey.raw 0} true true stOne).1.readerLog = stOne.readerLog := by
  have h1 : missingKeys stOne = ∅ := by decide
  have h2 : ∀ p ∈ stOne.store, SKey.did p.1 ∈ stOne.wishlist := by decide
  have h3 : ∀ d, resolveKey envInc stOne.treeCache (SKey.raw 0) = some d →
      SKey.did d ∈ stOne.wishlist := by
    intro d hd
    have he : resolveKey envInc stOne.treeCache (SKey.raw 0) = some 1 := rfl
    rw [he] at hd
    injection hd with h4
    rw [← h4]
    decide
  exact ⟨h1, h2,
    load_idempotent_amended envInc 3 true true (SKey.raw 0) stOne h1 h2 h3⟩



/-- Generation step of the counterexample run: composite 11 is delayed with
IncompatibleAreas, composite 10 is computed, and the keepables set protects
the otherwise-unwished dataset 2. -/
theorem cex_gen_step :
    genComposite env5 (Node.compN 10 [Node.readerN 1 "r"] [Node.compN 11 [Node.readerN 2 "r"] []])
      (⟨[(1, 100), (2, 200)], {SKey.did 10}, [(SKey.raw 0, 10)], [("r", [1, 2])], []⟩ : SceneState)
      ∅ =
    (⟨[(1, 100), (2, 200), (10, 900)], {SKey.did 10}, [(SKey.raw 0, 10)], [("r", [1, 2])],
        [11, 10]⟩,
      {10, 11, 2},
      Node.compN 10 [Node.readerN 1 "r"] [Node.compN 11 [Node.readerN 2 "r"] []]) := by
  simp [genComposite, getPrereqDatasets, getPrereqLoop, finishPrereq, containsId, lookupId,
    setId, storedIds, nodeNames, Node.nodeName, renameCache, env5]
  decide



/-- First load of raw key 0 from the empty scene: datasets 1 and 2 are read,
composite 10 is generated, unload deletes dataset 1 but the keepables keep
dataset 2 although it is not wished. -/
theorem cex_first_call : loadScene env5 5 {SKey.raw 0} true true stEmpty =
    (⟨[(2, 200), (10, 900)], {SKey.did 10}, [(SKey.raw 0, 10)], [("r", [1, 2])], [11, 10]⟩,
      none) := by
  have hsort1 : sortedKeys {SKey.raw 0} = [SKey.raw 0] := by
    unfold sortedKeys
    exact Finset.sort_singleton skeyLE (SKey.raw 0)
  have hneed : (stEmpty.wishlist ∪ {SKey.raw 0}).filter
      (fun k => keyNeeded stEmpty k = true) = {SKey.raw 0} := by decide
  have hpop : populateWithKeys env5 stEmpty.treeCache {SKey.raw 0} =
      ([(SKey.raw 0, 10)], ∅, ({10} : Finset DataID)) := by
    unfold populateWithKeys
    rw [hsort1]
    decide
  have hread : readFromStorage env5 5
      (⟨[], {SKey.did 10}, [(SKey.raw 0, 10)], [], []⟩ : SceneState) =
      (⟨[(1, 100), (2, 200)], {SKey.did 10}, [(SKey.raw 0, 10)], [("r", [1, 2])],
        []⟩ : SceneState) := by
    unfold readFromStorage missingDids sortedKeys
    rw [show missingKeys (⟨[], {SKey.did 10}, [(SKey.raw 0, 10)], [], []⟩ : SceneState) =
      {SKey.did 10} from by decide]
    rw [Finset.sort_singleton]
    decide
  have hgen : generatePossibleComposites env5 5 true
      (⟨[(1, 100), (2, 200)], {SKey.did 10}, [(SKey.raw 0, 10)], [("r", [1, 2])],
        []⟩ : SceneState) =
      (⟨[(2, 200), (10, 900)], {SKey.did 10}, [(SKey.raw 0, 10)], [("r", [1, 2])],
        [11, 10]⟩ : SceneState) := by
    unfold generatePossibleComposites
    have hmd : missingDids (⟨[(1, 100), (2, 200)], {SKey.did 10}, [(SKey.raw 0, 10)],
        [("r", [1, 2])], []⟩ : SceneState) = [10] := by
      unfold missingDids sortedKeys
      rw [show missingKeys (⟨[(1, 100), (2, 200)], {SKey.did 10}, [(SKey.raw 0, 10)],
        [("r", [1, 2])], []⟩ : SceneState) = {SKey.did 10} from by decide]
      rw [Finset.sort_singleton]
      rfl
    rw [hmd]
    have htn : ([10] : List DataID).filterMap (fun i =>
        match env5.catalog i with
        | some (.compE _ _) => some (buildNode env5 5 i)
        | _ => none) =
        [Node.compN 10 [Node.readerN 1 "r"] [Node.compN 11 [Node.readerN 2 "r"] []]] := rfl
    rw [htn]
    simp only [List.foldl_cons, List.foldl_nil]
    rw [cex_gen_step]
    decide
  unfold loadScene
  dsimp only
  rw [hneed, hpop]
  dsimp only
  rw [if_neg (by simp)]
  show (generatePossibleComposites env5 5 true (readFromStorage env5 5
      (⟨[], {SKey.did 10}, [(SKey.raw 0, 10)], [], []⟩ : SceneState)), none) = _
  rw [hread, hgen]


/-- Second, identical load on the state the first one produced: nothing is
missing, so no keepables accumulate, and unload now deletes dataset 2. -/
theorem cex_second_call : loadScene env5 5 {SKey.raw 0} true true
    (⟨[(2, 200), (10, 900)], {SKey.did 10}, [(SKey.raw 0, 10)], [("r", [1, 2])],
      [11, 10]⟩ : SceneState) =
    (⟨[(10, 900)], {SKey.did 10}, [(SKey.raw 0, 10)], [("r", [1, 2])], [11, 10]⟩,
      none) := by
  have hneed : ((⟨[(2, 200), (10, 900)], {SKey.did 10}, [(SKey.raw 0, 10)],
      [("r", [1, 2])], [11, 10]⟩ : SceneState).wishlist ∪ {SKey.raw 0}).filter
      (fun k => keyNeeded (⟨[(2, 200), (10, 900)], {SKey.did 10}, [(SKey.raw 0, 10)],
        [("r", [1, 2])], [11, 10]⟩ : SceneState) k = true) = {SKey.raw 0} := by decide
  have hpop : populateWithKeys env5 [(SKey.raw 0, 10)] {SKey.raw 0} =
      ([(SKey.raw 0, 10)], ∅, ({10} : Finset DataID)) := by
    unfold populateWithKeys sortedKeys
    rw [Finset.sort_singleton]
    decide
  have hread : readFromStorage env5 5
      (⟨[(2, 200), (10, 900)], {SKey.did 10}, [(SKey.raw 0, 10)], [("r", [1, 2])],
        [11, 10]⟩ : SceneState) =
      (⟨[(2, 200), (10, 900)], {SKey.did 10}, [(SKey.raw 0, 10)], [("r", [1, 2])],
        [11, 10]⟩ : SceneState) :=
    readFromStorage_no_missing env5 5 _ (by decide)
  have hgen : generatePossibleComposites env5 5 true
      (⟨[(2, 200), (10, 900)], {SKey.did 10}, [(SKey.raw 0, 10)], [("r", [1, 2])],
        [11, 10]⟩ : SceneState) =
      (⟨[(10, 900)], {SKey.did 10}, [(SKey.raw 0, 10)], [("r", [1, 2])],
        [11, 10]⟩ : SceneState) := by
    unfold generatePossibleComposites
    have hmd : missingDids (⟨[(2, 200), (10, 900)], {SKey.did 10}, [(SKey.raw 0, 10)],
        [("r", [1, 2])], [11, 10]⟩ : SceneState) = [] := by
      unfold missingDids sortedKeys
      rw [show missingKeys (⟨[(2, 200), (10, 900)], {SKey.did 10}, [(SKey.raw 0, 10)],
        [("r", [1, 2])], [11, 10]⟩ : SceneState) = ∅ from by decide]
      rw [Finset.sort_empty]
      rfl
    rw [hmd]
    simp only [List.filterMap_nil, List.foldl_nil]
    decide
  unfold loadScene
  dsimp only
  rw [hneed, hpop]
  dsimp only
  rw [if_neg (by simp)]
  show (generatePossibleComposites env5 5 true (readFromStorage env5 5
      (⟨[(2, 200), (10, 900)], {SKey.did 10}, [(SKey.raw 0, 10)], [("r", [1, 2])],
        [11, 10]⟩ : SceneState)), none) = _
  rw [hread, hgen]

/-- Counterexample for C5: under env5 the first load of raw key 0 succeeds
(no error, composite 10 stored and wished), yet the second call with identical
arguments returns a different store: the dataset that only the first call's
keepables protected has been unloaded, so the repeated call is not a no-op. -/
theorem load_idempotent_cex :
    (loadScene env5 5 {SKey.raw 0} true true stEmpty).2 = none ∧
    containsId (loadScene env5 5 {SKey.raw 0} true true stEmpty).1.store 10 = true ∧
    SKey.did 10 ∈ (loadScene env5 5 {SKey.raw 0} true true stEmpty).1.wishlist ∧
    (loadScene env5 5 {SKey.raw 0} true true
      (loadScene env5 5 {SKey.raw 0} true true stEmpty).1).2 = none ∧
    (loadScene env5 5 {SKey.raw 0} true true
      (loadScene env5 5 {SKey.raw 0} true true stEmpty).1).1.store ≠
      (loadScene env5 5 {SKey.raw 0} true true stEmpty).1.store := by
  rw [cex_first_call]
  dsimp only
  rw [cex_second_call]
  exact ⟨rfl, by decide, by decide, rfl, by decide⟩

end Satpy
